import Mathlib

/-!
Verification development for the HeatMap binning/aggregation engine of the
QuantSandbox repository (source: `TALIB_INDICATORS.md`, lines 688-945).

The engine is a pure JavaScript function
`buildHeatMap(items, config, zoomRanges = null)` together with the helpers
`clamp`, `quantile`, `computeRanges` and `normalizeParam`.  The embedding
below models JS numbers by `ℚ` (all engine arithmetic is +, -, *, /, floor,
min/max and comparisons, which IEEE doubles compute exactly on the value
ranges the claims quantify over; the one rounding-sensitive spot, the grid
side formula, is treated exactly in `gridSide` and certified against the
real-number formula in the C2 theorem).  A JS `undefined`/`null` numeric
slot is `Option ℚ` with `none` for the missing value; an arithmetic result
that would be IEEE `NaN` (from arithmetic on `undefined`) is likewise
modelled as `none`, with the NaN-propagating operations spelled out.
`buildHeatMap` in the source can throw a `TypeError` (when a NaN bin index
is used to index `cells`), so the model returns an explicit three-way
result: `crash` (the thrown exception), `nodata` (the JS `null` return) or
`matrix m`.
-/

/- The core Rat operations are `@[irreducible]`, which blocks the `decide`
front-end (the kernel itself reduces them fine); restore reducibility so
concrete runs of the engine can be evaluated inside proofs. -/
attribute [local semireducible] Rat.add Rat.sub Rat.mul Rat.inv

namespace QuantSandbox

/-- JS `clamp(v, a = 0, b = 1) = Math.max(a, Math.min(b, v))` (line 693). -/
def clamp (v : ℚ) (a : ℚ := 0) (b : ℚ := 1) : ℚ := max a (min b v)

/-- A `{min, max}` record as produced by `computeRanges` (line 707): each
bound is `null` (here `none`) when no value was seen for the key. -/
structure RangeQ where
  min : Option ℚ
  max : Option ℚ
deriving Repr, DecidableEq

/-- One scored parameter combination (`{ id, params, score }`).  `params`
is a JS object mapping parameter keys to numbers; modelled as an
association list (JS object keys are unique; `lookup` finds the first
entry, which coincides with object access on unique-key lists). -/
structure Result where
  id : String
  params : List (String × ℚ)
  score : ℚ
deriving Repr, DecidableEq

/-- `config` as read by `buildHeatMap` (lines 785-788).  Each field can be
absent (`none` models the JS `undefined` read). -/
structure HeatMapConfig where
  xAxis : Option (List String) := none
  yAxis : Option (List String) := none
  fixedParams : Option (List (String × ℚ)) := none
  scoreDirection : Option String := none
deriving Repr, DecidableEq

/-- Minimum of a list of values, scanned like the JS loop in
`computeRanges` (`min` starts at `Infinity`; `none` when no value). -/
def minQ : List ℚ → Option ℚ
  | [] => none
  | v :: rest => some (match minQ rest with | none => v | some m => Min.min v m)

/-- Maximum of a list of values (JS loop with `max = -Infinity`). -/
def maxQ : List ℚ → Option ℚ
  | [] => none
  | v :: rest => some (match maxQ rest with | none => v | some m => Max.max v m)

/-- The `{min, max}` computed by `computeRanges` for one key `k` over
`items` (lines 709-717): missing (`v != null` fails) values are skipped;
`null` bounds when the key has no value in any item. -/
def rangeOf (items : List Result) (k : String) : RangeQ :=
  { min := minQ (items.filterMap (fun it => it.params.lookup k)),
    max := maxQ (items.filterMap (fun it => it.params.lookup k)) }

/-- JS `computeRanges(items, keys)` (line 707): an object with one
`{min,max}` entry per key.  Modelled as an association list in key order;
for a duplicated key the JS object keeps a single entry, but the computed
value is identical for every occurrence, so `lookup`-observable behaviour
agrees. -/
def computeRanges (items : List Result) (keys : List String) : List (String × RangeQ) :=
  keys.map (fun k => (k, rangeOf items k))

/-- JS `normalizeParam(v, min, max)` (line 721):
`if (min === null || max === null || max === min) return 0.5;
 return clamp((v - min) / (max - min));`
When the guard falls through and `v` is `undefined`, the JS arithmetic
produces `NaN` (and `clamp(NaN) = NaN`): modelled by `none`.  (Both bounds
come from the same `computeRanges` entry, so they are `null` together; the
`max === min` test also catches the both-`undefined` case.) -/
def normalizeParam (v mn mx : Option ℚ) : Option ℚ :=
  match mn, mx with
  | none, _ => some (1/2)
  | _, none => some (1/2)
  | some a, some b =>
      if b = a then some (1/2)
      else v.map (fun x => clamp ((x - a) / (b - a)))

/-- `config.xAxis && config.xAxis.length ? config.xAxis : ["x"]`
(lines 785-786): a missing or empty axis list is replaced by the
single-key default. -/
def effAxis (axis : Option (List String)) (dflt : String) : List String :=
  match axis with
  | none => [dflt]
  | some l => if l.isEmpty then [dflt] else l

def xParamsOf (cfg : HeatMapConfig) : List String := effAxis cfg.xAxis "x"

def yParamsOf (cfg : HeatMapConfig) : List String := effAxis cfg.yAxis "y"

/-- `config.fixedParams || {}` (line 787). -/
def fixedOf (cfg : HeatMapConfig) : List (String × ℚ) := cfg.fixedParams.getD []

/-- `config.scoreDirection || "max"` (line 788). -/
def dirOf (cfg : HeatMapConfig) : String := cfg.scoreDirection.getD "max"

/-- `new Set([...xParams, ...yParams])` used with `.has` (line 789);
membership in the concatenation is Set membership. -/
def axisKeysOf (cfg : HeatMapConfig) : List String := xParamsOf cfg ++ yParamsOf cfg

/-- The fixed-params predicate (lines 793-799): for every `[k, v]` of
`fixedParams`, axis keys are skipped, otherwise `it.params?.[k] !== v`
rejects the result (a missing value is `undefined !== v`, hence a
rejection). -/
def passesFixed (axisKeys : List String) (fixed : List (String × ℚ)) (it : Result) : Bool :=
  fixed.all (fun kv => axisKeys.contains kv.1 || decide (it.params.lookup kv.1 = some kv.2))

/-- The zoom predicate (lines 803-811): for each key of
`[...xParams, ...yParams]`, an absent entry or one with a `null` bound is
skipped (`continue`); otherwise a missing value or one outside
`[min, max]` rejects the result. -/
def passesZoom (allKeys : List String) (zr : List (String × RangeQ)) (it : Result) : Bool :=
  allKeys.all (fun k =>
    match zr.lookup k with
    | none => true
    | some r =>
      match r.min, r.max with
      | some mn, some mx =>
        match it.params.lookup k with
        | none => false
        | some v => decide (mn ≤ v) && decide (v ≤ mx)
      | _, _ => true)

/-- The `filtered` list of lines 791-812.  The JS guards
`if (Object.keys(fixedParams).length)` and `if (zoomRanges)` only skip
work: filtering by an empty `fixedParams` keeps everything (the inner
`for` loop is vacuous), so the unconditional filter is behaviourally
identical; `zoomRanges === null` skips the second filter (the `none`
branch), while any object — even `{}`, which is truthy in JS — filters
(the `some` branch, vacuous for `[]`). -/
def filteredOf (items : List Result) (cfg : HeatMapConfig)
    (zr : Option (List (String × RangeQ))) : List Result :=
  let f1 := items.filter (passesFixed (axisKeysOf cfg) (fixedOf cfg))
  match zr with
  | none => f1
  | some z => f1.filter (passesZoom (axisKeysOf cfg) z)

/-- Grid side (lines 816-820):
`base = Math.round(clamp(Math.sqrt(Math.max(N,1))/6, 0, 1) * (13 - 9) + 9)`
followed by `clamp(base, 9, 13)` (with `desiredMax = Math.min(15, 13) = 13`).
Computed exactly over ℕ: with `M = max N 1` and `t = clamp(√M/6, 0, 1)`,
`base = 9 + round(min(4, 2√M/3))`, and for `k ∈ {1,2,3,4}` the rounded term
is `≥ k` iff `2√M/3 ≥ k - 1/2` iff `16·M ≥ 9·(2k-1)²`, giving the integer
thresholds 81, 225, 441 (the `k = 1` threshold `9 ≤ 16M` always holds).
The branch values are exact: `2√M/3 + 1/2` can only equal an integer if
`√M ∈ ℚ \ ℤ` (impossible) or `3 ∣ 2√M` with `√M ∈ ℤ` (then the sum is not
a half-integer), and every integer `M` keeps `2√M/3` at distance ≥ 9·10⁻³
from the half-integer boundaries, far beyond double-precision error, so
IEEE evaluation of the source line agrees.  The theorem for claim C2
certifies this definition against the real-number spec formula. -/
def gridSide (N : ℕ) : ℕ :=
  Max.max 9 (Min.min 13 (9 +
    (if 16 * Max.max N 1 < 81 then 1 else if 16 * Max.max N 1 < 225 then 2
     else if 16 * Max.max N 1 < 441 then 3 else 4)))

/-- JS `Math.ceil(Math.sqrt(n))` for a natural `n`, computed exactly: the
least `c` with `n ≤ c²`.  (Double-precision `Math.sqrt` is correctly
rounded and `√n` for non-square `n` stays ≥ `1/(2n)` away from integers,
so the IEEE ceiling agrees on every reachable `n`.)  A linear search is
used because it reduces inside the kernel. -/
def ceilSqrt (n : ℕ) : ℕ :=
  match (List.range (n + 1)).find? (fun c => n ≤ c * c) with
  | some c => c
  | none => n

/-- JS `Math.ceil(n / cols)` for naturals, `cols > 0`. -/
def ceilDivNat (n c : ℕ) : ℕ := (n + c - 1) / c

/-- A result decorated with its coordinates (`{...it, xCoord, yCoord}`,
line 854).  Coordinates are `Option ℚ` with `none` for IEEE `NaN`. -/
structure WithCoords where
  base : Result
  xCoord : Option ℚ
  yCoord : Option ℚ
deriving Repr, DecidableEq

/-- A result decorated with centered coordinates
(`{...it, xCentered, yCentered}`, line 875). -/
structure CItem where
  base : Result
  xCoord : Option ℚ
  yCoord : Option ℚ
  xCentered : Option ℚ
  yCentered : Option ℚ
deriving Repr, DecidableEq

/-- `xVals.reduce((a, b) => a + b, 0)` with NaN propagation: adding a NaN
(`none`) makes the sum NaN. -/
def optSum (l : List (Option ℚ)) : Option ℚ :=
  l.foldl (fun acc b =>
    match acc, b with
    | some x, some y => some (x + y)
    | _, _ => none) (some 0)

/-- Index coordinate for column `index % cols` (lines 840-847):
`cols = Math.max(1, Math.ceil(Math.sqrt(n)))`,
`xCoord = cols > 1 ? col / (cols - 1) : 0.5`, then `clamp`. -/
def idxCoordX (n index : ℕ) : ℚ :=
  let cols := Max.max 1 (ceilSqrt n)
  let col := index % cols
  clamp (if 1 < cols then (col : ℚ) / ((cols : ℚ) - 1) else 1/2)

/-- Index coordinate for row `Math.floor(index / cols)` (lines 840-847):
`rows = Math.max(1, Math.ceil(n / cols))`,
`yCoord = rows > 1 ? row / (rows - 1) : 0.5`, then `clamp`. -/
def idxCoordY (n index : ℕ) : ℚ :=
  let cols := Max.max 1 (ceilSqrt n)
  let rows := Max.max 1 (ceilDivNat n cols)
  let row := index / cols
  clamp (if 1 < rows then (row : ℚ) / ((rows : ℚ) - 1) else 1/2)

/-- One parameter-based coordinate (lines 849-852): map each axis key
through `normalizeParam(it.params?.[k], ranges[k]?.min, ranges[k]?.max)`,
sum, and divide by `Math.max(1, length)`.  NaN (`none`) propagates through
sum and division. -/
def normCoord (ranges : List (String × RangeQ)) (keys : List String) (it : Result) : Option ℚ :=
  let vals := keys.map (fun k =>
    normalizeParam (it.params.lookup k)
      ((ranges.lookup k).bind RangeQ.min) ((ranges.lookup k).bind RangeQ.max))
  (optSum vals).map (fun s => s / Max.max 1 ((vals.length : ℚ)))

/-- The `withCoords` map (lines 835-855): each filtered result, with its
position `index`, receives either index coordinates or parameter
coordinates. -/
def assignCoords (filtered : List Result) (xParams yParams : List String)
    (ranges : List (String × RangeQ)) (useIdx : Bool) : List WithCoords :=
  filtered.mapIdx (fun index it =>
    if useIdx then
      { base := it, xCoord := some (idxCoordX filtered.length index),
        yCoord := some (idxCoordY filtered.length index) }
    else
      { base := it, xCoord := normCoord ranges xParams it,
        yCoord := normCoord ranges yParams it })

/-- Stable insertion used by `stableSortBy`: `a` is placed after every
prefix element `b` with `le b a` (so ties keep their original order). -/
def insertLe {α : Type} (le : α → α → Bool) (a : α) : List α → List α
  | [] => [a]
  | b :: l => if le b a then b :: insertLe le a l else a :: b :: l

/-- Stable sort by a total boolean preorder, as a left fold of stable
insertions.  JS `Array.prototype.sort` is required to be stable and, for a
consistent comparator `c`, produces the unique stable-sorted permutation
("`a` before `b`" iff `c(a,b) ≤ 0`), which this function computes. -/
def stableSortBy {α : Type} (le : α → α → Bool) (l : List α) : List α :=
  l.foldl (fun acc a => insertLe le a acc) []

/-- The score comparator of lines 861-863:
`(a, b) => scoreDirection === "min" ? a.score - b.score : b.score - a.score`;
`a` sorts before `b` iff the comparator is `≤ 0`. -/
def scoreLe (dir : String) (a b : WithCoords) : Bool :=
  if dir = "min" then decide (a.base.score ≤ b.base.score)
  else decide (b.base.score ≤ a.base.score)

/-- The numeric-ascending comparator `(a, b) => a - b` of lines 866-867,
on possibly-NaN values: per the ECMAScript `SortCompare` step, a NaN
comparator result is treated as `0`, so NaN elements compare equal to
everything.  (With a NaN present the comparator is inconsistent and the
engine run ends in a throw — see `crashOf` — so the order chosen here is
never observable in a returned matrix.) -/
def optLeAsc (a b : Option ℚ) : Bool :=
  match a, b with
  | some x, some y => decide (x ≤ y)
  | _, _ => true

/-- JS `quantile(sortedArr, q)` (lines 699-706), on possibly-NaN entries:
`pos = (length - 1) * q`, `base = Math.floor(pos)`; if `sortedArr[base+1]`
is `undefined` (out of range — a NaN *element* is not `undefined`) return
`sortedArr[base]`, else linearly interpolate.  NaN operands make the
interpolation NaN.  Empty array returns 0.  (Only called with `q = 0.5`,
so `pos ≥ 0` and `base` is in range; the `getD` default is never used.) -/
def quantileOpt (arr : List (Option ℚ)) (q : ℚ) : Option ℚ :=
  if arr.isEmpty then some 0
  else
    match arr[⌊((arr.length - 1 : ℕ) : ℚ) * q⌋.toNat + 1]? with
    | none => arr.getD ⌊((arr.length - 1 : ℕ) : ℚ) * q⌋.toNat (some 0)
    | some nxt =>
      match arr.getD ⌊((arr.length - 1 : ℕ) : ℚ) * q⌋.toNat (some 0), nxt with
      | some a, some b => some (a +
          (((arr.length - 1 : ℕ) : ℚ) * q - ((⌊((arr.length - 1 : ℕ) : ℚ) * q⌋.toNat : ℕ) : ℚ))
            * (b - a))
      | _, _ => none

/-- `ranges = computeRanges(filtered, allKeys)` (lines 822-823), with
`allKeys = [...new Set([...xParams, ...yParams])]`.  Set iteration keeps
first occurrences in order. -/
def dedupFirstAux : List String → List String → List String
  | [], _ => []
  | a :: rest, seen =>
    if seen.contains a then dedupFirstAux rest seen
    else a :: dedupFirstAux rest (a :: seen)

def dedupFirst (l : List String) : List String := dedupFirstAux l []

def allKeysOf (cfg : HeatMapConfig) : List String :=
  dedupFirst (xParamsOf cfg ++ yParamsOf cfg)

def rangesOf (items : List Result) (cfg : HeatMapConfig)
    (zr : Option (List (String × RangeQ))) : List (String × RangeQ) :=
  computeRanges (filteredOf items cfg zr) (allKeysOf cfg)

/-- The per-key validity test of lines 825-832:
`r && r.min != null && r.max != null && r.max !== r.min`. -/
def rangeValidOn (ranges : List (String × RangeQ)) (k : String) : Bool :=
  match ranges.lookup k with
  | some r => r.min.isSome && r.max.isSome && decide (r.max ≠ r.min)
  | none => false

def xRangeValidOf (items : List Result) (cfg : HeatMapConfig)
    (zr : Option (List (String × RangeQ))) : Bool :=
  (xParamsOf cfg).any (rangeValidOn (rangesOf items cfg zr))

def yRangeValidOf (items : List Result) (cfg : HeatMapConfig)
    (zr : Option (List (String × RangeQ))) : Bool :=
  (yParamsOf cfg).any (rangeValidOn (rangesOf items cfg zr))

/-- `useIndexCoords = !xRangeValid || !yRangeValid || filtered.length >= 100`
(line 833). -/
def useIndexCoordsOf (items : List Result) (cfg : HeatMapConfig)
    (zr : Option (List (String × RangeQ))) : Bool :=
  !xRangeValidOf items cfg zr || !yRangeValidOf items cfg zr
    || decide (100 ≤ (filteredOf items cfg zr).length)

def withCoordsOf (items : List Result) (cfg : HeatMapConfig)
    (zr : Option (List (String × RangeQ))) : List WithCoords :=
  assignCoords (filteredOf items cfg zr) (xParamsOf cfg) (yParamsOf cfg)
    (rangesOf items cfg zr) (useIndexCoordsOf items cfg zr)

/-- The sorted copy of line 861 (`[...withCoords].sort(...)`). -/
def sortedOf (items : List Result) (cfg : HeatMapConfig)
    (zr : Option (List (String × RangeQ))) : List WithCoords :=
  stableSortBy (scoreLe (dirOf cfg)) (withCoordsOf items cfg zr)

/-- `k = Math.max(10, Math.min(sorted.length, Math.floor(sorted.length * 0.06)))`
(line 864).  The double `0.06` is below `6/100` by < 3·10⁻¹⁸; for the only
lengths on which `k` is evaluated (`length < 100`, since centering is
skipped otherwise) both products floor identically, so the exact rational
is faithful. -/
def kOf (items : List Result) (cfg : HeatMapConfig)
    (zr : Option (List (String × RangeQ))) : ℕ :=
  let n := (sortedOf items cfg zr).length
  Max.max 10 (Min.min n (⌊(n : ℚ) * (6/100)⌋.toNat))

/-- `top = sorted.slice(0, k)` (line 865): the subset whose coordinate
medians define the center. -/
def topOf (items : List Result) (cfg : HeatMapConfig)
    (zr : Option (List (String × RangeQ))) : List WithCoords :=
  (sortedOf items cfg zr).take (kOf items cfg zr)

/-- `centerX`/`centerY` (lines 857-870): `(0.5, 0.5)` when centering is
skipped, otherwise the interpolated medians of the top slice's sorted
coordinates. -/
def centerOf (items : List Result) (cfg : HeatMapConfig)
    (zr : Option (List (String × RangeQ))) : Option ℚ × Option ℚ :=
  if useIndexCoordsOf items cfg zr then (some (1/2), some (1/2))
  else
    let top := topOf items cfg zr
    (quantileOpt (stableSortBy optLeAsc (top.map WithCoords.xCoord)) (1/2),
     quantileOpt (stableSortBy optLeAsc (top.map WithCoords.yCoord)) (1/2))

/-- `clamp(xCoord - centerX + 0.5)` with NaN propagation (lines 872-876). -/
def shiftOpt (x c : Option ℚ) : Option ℚ :=
  match x, c with
  | some x', some c' => some (clamp (x' - c' + 1/2))
  | _, _ => none

/-- The `centered` list (lines 872-876). -/
def centeredOf (items : List Result) (cfg : HeatMapConfig)
    (zr : Option (List (String × RangeQ))) : List CItem :=
  let skip := useIndexCoordsOf items cfg zr
  let c := centerOf items cfg zr
  (withCoordsOf items cfg zr).map (fun it =>
    { base := it.base, xCoord := it.xCoord, yCoord := it.yCoord,
      xCentered := if skip then it.xCoord else shiftOpt it.xCoord c.1,
      yCentered := if skip then it.yCoord else shiftOpt it.yCoord c.2 })

/-- The binning loop of lines 879-883 throws a `TypeError` exactly when
some centered coordinate is NaN: `Math.floor(NaN * X)`, `Math.max` and
`Math.min` all return NaN, and `cells[NaN]` (or `cells[yi][NaN].push`) is
an access on `undefined`.  The loop runs in list order, so the first item
with a NaN coordinate throws — the call then produces no value at all,
regardless of later items, which is what `crash` models. -/
def crashOf (items : List Result) (cfg : HeatMapConfig)
    (zr : Option (List (String × RangeQ))) : Bool :=
  (centeredOf items cfg zr).any (fun it => it.xCentered.isNone || it.yCentered.isNone)

/-- `xi = Math.min(X - 1, Math.max(0, Math.floor(xCentered * X)))`
(lines 880-881).  Only evaluated on non-NaN coordinates (the throw case is
handled by `crashOf`); the `getD 0` default is never reached there. -/
def binIndex (S : ℕ) (c : Option ℚ) : ℕ :=
  (Min.min ((S : ℤ) - 1) (Max.max 0 ⌊(c.getD 0) * (S : ℚ)⌋)).toNat

/-- `W = H = S` for the returned grid (lines 816-820, 935-936). -/
def gridOf (items : List Result) (cfg : HeatMapConfig)
    (zr : Option (List (String × RangeQ))) : ℕ :=
  gridSide (filteredOf items cfg zr).length

/-- The bucket `cells[yi][xi]` (lines 878-883), functionally: the push
loop visits `centered` in list order and appends each item to the single
bucket addressed by its clamped bin indices, so bucket `(yi, xi)` is the
order-preserving sublist of items binned there. -/
def bucketOf (items : List Result) (cfg : HeatMapConfig)
    (zr : Option (List (String × RangeQ))) (yi xi : ℕ) : List CItem :=
  (centeredOf items cfg zr).filter (fun it =>
    decide (binIndex (gridOf items cfg zr) it.yCentered = yi)
      && decide (binIndex (gridOf items cfg zr) it.xCentered = xi))

/-- One cell of the output matrix (lines 889-930).  The JS
`paramRanges: {x, y}` pair is flattened into two fields. -/
structure Cell where
  xi : ℕ
  yi : ℕ
  count : ℕ
  avgScore : Option ℚ
  minScore : Option ℚ
  maxScore : Option ℚ
  paramRangesX : List (String × RangeQ)
  paramRangesY : List (String × RangeQ)
  results : List CItem
  zoomRanges : Option (List (String × RangeQ))
deriving Repr, DecidableEq

/-- Per-cell aggregation (lines 890-929): the empty-bucket placeholder, or
`count`/`avgScore`/`minScore`/`maxScore` over the bucket's scores,
per-axis `paramRanges`, and `zoomRanges` = the ranges over
`[...xParams, ...yParams]` with every key whose `min` computed to `null`
deleted, the whole object replaced by `null` when no key remains. -/
def mkCell (xParams yParams : List String) (bucket : List CItem) (yi xi : ℕ) : Cell :=
  if bucket.isEmpty then
    { xi := xi, yi := yi, count := 0, avgScore := none, minScore := none,
      maxScore := none, paramRangesX := computeRanges [] xParams,
      paramRangesY := computeRanges [] yParams, results := [], zoomRanges := none }
  else
    { xi := xi, yi := yi, count := bucket.length,
      avgScore := some (((bucket.map (fun b => b.base.score)).foldl (· + ·) 0)
        / (bucket.length : ℚ)),
      minScore := minQ (bucket.map (fun b => b.base.score)),
      maxScore := maxQ (bucket.map (fun b => b.base.score)),
      paramRangesX := computeRanges (bucket.map CItem.base) xParams,
      paramRangesY := computeRanges (bucket.map CItem.base) yParams,
      results := bucket,
      zoomRanges := if ((computeRanges (bucket.map CItem.base) (xParams ++ yParams)).filter
          (fun e => e.2.min.isSome)).isEmpty then none
        else some ((computeRanges (bucket.map CItem.base) (xParams ++ yParams)).filter
          (fun e => e.2.min.isSome)) }

/-- The `Y × X` grid of aggregated cells (lines 878, 889-931). -/
def cellsOf (items : List Result) (cfg : HeatMapConfig)
    (zr : Option (List (String × RangeQ))) : List (List Cell) :=
  let S := gridOf items cfg zr
  (List.range S).map (fun yi =>
    (List.range S).map (fun xi =>
      mkCell (xParamsOf cfg) (yParamsOf cfg) (bucketOf items cfg zr yi xi) yi xi))

/-- `sMin` (lines 885-886): min of all post-filter scores, `0` for an
empty list (unreachable, since `N ≥ 1` when the matrix is built). -/
def scoreMinOf (items : List Result) (cfg : HeatMapConfig)
    (zr : Option (List (String × RangeQ))) : ℚ :=
  match minQ ((centeredOf items cfg zr).map (fun d => d.base.score)) with
  | some v => v
  | none => 0

/-- `sMax` (lines 885-887). -/
def scoreMaxOf (items : List Result) (cfg : HeatMapConfig)
    (zr : Option (List (String × RangeQ))) : ℚ :=
  match maxQ ((centeredOf items cfg zr).map (fun d => d.base.score)) with
  | some v => v
  | none => 1

/-- The returned object (lines 933-944). -/
structure HeatMapMatrix where
  N : ℕ
  W : ℕ
  H : ℕ
  scoreMin : ℚ
  scoreMax : ℚ
  centerX : Option ℚ
  centerY : Option ℚ
  cells : List (List Cell)
  xKeys : List String
  yKeys : List String
deriving Repr, DecidableEq

def matrixOf (items : List Result) (cfg : HeatMapConfig)
    (zr : Option (List (String × RangeQ))) : HeatMapMatrix :=
  { N := (filteredOf items cfg zr).length,
    W := gridOf items cfg zr, H := gridOf items cfg zr,
    scoreMin := scoreMinOf items cfg zr, scoreMax := scoreMaxOf items cfg zr,
    centerX := (centerOf items cfg zr).1, centerY := (centerOf items cfg zr).2,
    cells := cellsOf items cfg zr,
    xKeys := xParamsOf cfg, yKeys := yParamsOf cfg }

/-- Outcome of one engine call: `crash` models the `TypeError` thrown by
the binning loop on a NaN coordinate, `nodata` the JS `null` return, and
`matrix` a normal return. -/
inductive BuildResult where
  | crash : BuildResult
  | nodata : BuildResult
  | matrix (m : HeatMapMatrix) : BuildResult
deriving Repr, DecidableEq

/-- JS `buildHeatMap(items, config, zoomRanges = null)` (lines 783-945).
(`!items` — a `null`/`undefined` list — is collapsed with the empty list;
both return `null` before any other work.) -/
def buildHeatMap (items : List Result) (config : HeatMapConfig)
    (zoomRanges : Option (List (String × RangeQ)) := none) : BuildResult :=
  if items.isEmpty then .nodata
  else if (filteredOf items config zoomRanges).isEmpty then .nodata
  else if crashOf items config zoomRanges then .crash
  else .matrix (matrixOf items config zoomRanges)

/-- `m.cells[yi][xi]`, when in range. -/
def getCell (m : HeatMapMatrix) (yi xi : ℕ) : Option Cell :=
  (m.cells[yi]?).bind (fun row => row[xi]?)

/-- Total count over all cells of the matrix. -/
def sumCounts (m : HeatMapMatrix) : ℕ :=
  (m.cells.map (fun row => (row.map Cell.count).sum)).sum

/-! ## Basic inversion and grid-size lemmas -/

lemma buildHeatMap_matrix_iff {items : List Result} {cfg : HeatMapConfig}
    {zr : Option (List (String × RangeQ))} {m : HeatMapMatrix} :
    buildHeatMap items cfg zr = .matrix m ↔
      items ≠ [] ∧ filteredOf items cfg zr ≠ [] ∧ crashOf items cfg zr = false
        ∧ m = matrixOf items cfg zr := by
  unfold buildHeatMap
  split_ifs with h1 h2 h3
  · simp only [List.isEmpty_iff] at h1
    simp [h1]
  · simp only [List.isEmpty_iff] at h1 h2
    simp [h1, h2]
  · simp only [List.isEmpty_iff] at h1 h2
    simp [h1, h2, h3]
  · simp only [List.isEmpty_iff] at h1 h2
    rw [Bool.not_eq_true] at h3
    simp only [h3, BuildResult.matrix.injEq]
    constructor
    · intro h
      exact ⟨h1, h2, trivial, h.symm⟩
    · intro h
      exact h.2.2.2.symm

lemma gridSide_ge (N : ℕ) : 9 ≤ gridSide N := by
  unfold gridSide
  exact le_max_left _ _

lemma gridSide_le (N : ℕ) : gridSide N ≤ 13 := by
  unfold gridSide
  split_ifs <;> omega

lemma gridSide_pos (N : ℕ) : 0 < gridSide N :=
  lt_of_lt_of_le (by norm_num) (gridSide_ge N)

/-- The exact ℕ computation of `gridSide` agrees with the real-number
formula of the source line
`clamp(Math.round(clamp(Math.sqrt(Math.max(N,1))/6,0,1)*(13-9)+9), 9, 13)`
(with `Math.round x = ⌊x + 1/2⌋`). -/
lemma gridSide_spec (N : ℕ) :
    (gridSide N : ℤ) = Max.max 9 (Min.min 13
      ⌊Max.max 0 (Min.min 1 (Real.sqrt (Max.max (N : ℝ) 1) / 6)) * (13 - 9) + 9 + 1/2⌋) := by
  have hcast : (Max.max (N : ℝ) 1) = ((Max.max N 1 : ℕ) : ℝ) := by
    rw [Nat.cast_max]; norm_num
  rw [hcast]
  have hM1 : 1 ≤ Max.max N 1 := le_max_right N 1
  have hs0 : (0:ℝ) ≤ Real.sqrt ((Max.max N 1 : ℕ) : ℝ) := Real.sqrt_nonneg _
  rcases lt_or_le (Max.max N 1) 36 with h36 | h36
  · have h6 : Real.sqrt ((Max.max N 1 : ℕ) : ℝ) < 6 := by
      rw [Real.sqrt_lt' (by norm_num)]
      have hc : ((Max.max N 1 : ℕ):ℝ) < 36 := by exact_mod_cast h36
      nlinarith [hc]
    have hclamp : Max.max 0 (Min.min 1 (Real.sqrt ((Max.max N 1 : ℕ) : ℝ) / 6))
        = Real.sqrt ((Max.max N 1 : ℕ) : ℝ) / 6 := by
      rw [min_eq_right (by linarith), max_eq_right (by positivity)]
    rw [hclamp]
    rcases lt_or_le (Max.max N 1) 6 with hb | hb
    · have hlo : (3/4 : ℝ) ≤ Real.sqrt ((Max.max N 1 : ℕ) : ℝ) := by
        rw [Real.le_sqrt (by norm_num) (by positivity)]
        have hc : (1:ℝ) ≤ ((Max.max N 1 : ℕ):ℝ) := by exact_mod_cast hM1
        nlinarith [hc]
      have hhi : Real.sqrt ((Max.max N 1 : ℕ) : ℝ) < 9/4 := by
        rw [Real.sqrt_lt' (by norm_num)]
        have hc : ((Max.max N 1 : ℕ):ℝ) ≤ 5 := by exact_mod_cast Nat.lt_succ_iff.mp hb
        nlinarith [hc]
      have hfl : ⌊Real.sqrt ((Max.max N 1 : ℕ) : ℝ) / 6 * (13 - 9) + 9 + 1/2⌋ = (10:ℤ) := by
        rw [Int.floor_eq_iff]
        push_cast at hlo hhi ⊢
        constructor <;> linarith
      have hgs : gridSide N = 10 := by
        unfold gridSide
        have h81 : 16 * Max.max N 1 < 81 := by omega
        simp [h81]
      rw [hfl, hgs]; decide
    · rcases lt_or_le (Max.max N 1) 15 with hb2 | hb2
      · have hlo : (9/4 : ℝ) ≤ Real.sqrt ((Max.max N 1 : ℕ) : ℝ) := by
          rw [Real.le_sqrt (by norm_num) (by positivity)]
          have hc : (6:ℝ) ≤ ((Max.max N 1 : ℕ):ℝ) := by exact_mod_cast hb
          nlinarith [hc]
        have hhi : Real.sqrt ((Max.max N 1 : ℕ) : ℝ) < 15/4 := by
          rw [Real.sqrt_lt' (by norm_num)]
          have hc : ((Max.max N 1 : ℕ):ℝ) ≤ 14 := by exact_mod_cast Nat.lt_succ_iff.mp hb2
          nlinarith [hc]
        have hfl : ⌊Real.sqrt ((Max.max N 1 : ℕ) : ℝ) / 6 * (13 - 9) + 9 + 1/2⌋ = (11:ℤ) := by
          rw [Int.floor_eq_iff]
          push_cast at hlo hhi ⊢
          constructor <;> linarith
        have hgs : gridSide N = 11 := by
          unfold gridSide
          have h81 : ¬ (16 * Max.max N 1 < 81) := by omega
          have h225 : 16 * Max.max N 1 < 225 := by omega
          simp [h81, h225]
        rw [hfl, hgs]; decide
      · rcases lt_or_le (Max.max N 1) 28 with hb3 | hb3
        · have hlo : (15/4 : ℝ) ≤ Real.sqrt ((Max.max N 1 : ℕ) : ℝ) := by
            rw [Real.le_sqrt (by norm_num) (by positivity)]
            have hc : (15:ℝ) ≤ ((Max.max N 1 : ℕ):ℝ) := by exact_mod_cast hb2
            nlinarith [hc]
          have hhi : Real.sqrt ((Max.max N 1 : ℕ) : ℝ) < 21/4 := by
            rw [Real.sqrt_lt' (by norm_num)]
            have hc : ((Max.max N 1 : ℕ):ℝ) ≤ 27 := by exact_mod_cast Nat.lt_succ_iff.mp hb3
            nlinarith [hc]
          have hfl : ⌊Real.sqrt ((Max.max N 1 : ℕ) : ℝ) / 6 * (13 - 9) + 9 + 1/2⌋ = (12:ℤ) := by
            rw [Int.floor_eq_iff]
            push_cast at hlo hhi ⊢
            constructor <;> linarith
          have hgs : gridSide N = 12 := by
            unfold gridSide
            have h81 : ¬ (16 * Max.max N 1 < 81) := by omega
            have h225 : ¬ (16 * Max.max N 1 < 225) := by omega
            have h441 : 16 * Max.max N 1 < 441 := by omega
            simp [h81, h225, h441]
          rw [hfl, hgs]; decide
        · have hlo : (21/4 : ℝ) ≤ Real.sqrt ((Max.max N 1 : ℕ) : ℝ) := by
            rw [Real.le_sqrt (by norm_num) (by positivity)]
            have hc : (28:ℝ) ≤ ((Max.max N 1 : ℕ):ℝ) := by exact_mod_cast hb3
            nlinarith [hc]
          have hhi : Real.sqrt ((Max.max N 1 : ℕ) : ℝ) < 27/4 := by
            rw [Real.sqrt_lt' (by norm_num)]
            have hc : ((Max.max N 1 : ℕ):ℝ) ≤ 35 := by exact_mod_cast Nat.lt_succ_iff.mp h36
            nlinarith [hc]
          have hfl : ⌊Real.sqrt ((Max.max N 1 : ℕ) : ℝ) / 6 * (13 - 9) + 9 + 1/2⌋ = (13:ℤ) := by
            rw [Int.floor_eq_iff]
            push_cast at hlo hhi ⊢
            constructor <;> linarith
          have hgs : gridSide N = 13 := by
            unfold gridSide
            have h81 : ¬ (16 * Max.max N 1 < 81) := by omega
            have h225 : ¬ (16 * Max.max N 1 < 225) := by omega
            have h441 : ¬ (16 * Max.max N 1 < 441) := by omega
            simp [h81, h225, h441]
          rw [hfl, hgs]; decide
  · have h6 : (6:ℝ) ≤ Real.sqrt ((Max.max N 1 : ℕ) : ℝ) := by
      rw [Real.le_sqrt (by norm_num) (by positivity)]
      have hc : (36:ℝ) ≤ ((Max.max N 1 : ℕ):ℝ) := by exact_mod_cast h36
      nlinarith [hc]
    have hclamp : Max.max 0 (Min.min 1 (Real.sqrt ((Max.max N 1 : ℕ) : ℝ) / 6)) = 1 := by
      rw [min_eq_left (by linarith), max_eq_right (by norm_num)]
    rw [hclamp]
    have hfl : ⌊(1:ℝ) * (13 - 9) + 9 + 1/2⌋ = (13:ℤ) := by
      rw [Int.floor_eq_iff]
      constructor <;> norm_num
    have hgs : gridSide N = 13 := by
      unfold gridSide
      have h81 : ¬ (16 * Max.max N 1 < 81) := by omega
      have h225 : ¬ (16 * Max.max N 1 < 225) := by omega
      have h441 : ¬ (16 * Max.max N 1 < 441) := by omega
      simp [h81, h225, h441]
    rw [hfl, hgs]; decide

/-! ## Claim C1 -/

/-- Input exhibiting the C1/`normalizeParam` defect: three results survive
filtering, both axis ranges are non-degenerate (`p1 ∈ {1,2}`,
`p2 ∈ {1,2,3}`) and `N < 100`, so parameter coordinates are used; the
third result has no `p1` value, so its `xCoord` is NaN and the binning
loop throws. -/
def itemsC1 : List Result :=
  [⟨"a", [("p1", 1), ("p2", 1)], 1⟩,
   ⟨"b", [("p1", 2), ("p2", 2)], 2⟩,
   ⟨"c", [("p2", 3)], 3⟩]

def cfgC1 : HeatMapConfig := { xAxis := some ["p1"], yAxis := some ["p2"] }

/-- C1: the claim states `buildHeatMap` returns a non-null `HeatMapMatrix`
for *every* input with at least one surviving result.  The code instead
throws a `TypeError` on `itemsC1` (3 surviving results): the missing `p1`
value of result `"c"` reaches `normalizeParam`'s arithmetic (the guard of
line 722 only checks the *range*, not `v`), producing a NaN coordinate,
and the binning loop indexes `cells` with NaN.  The spec is explicit that
a missing value must fall back to `0.5` (§4.1 step 3) and that no
exceptions are thrown (§7), so this is a code bug, witnessed here by the
model evaluating to `crash`. -/
theorem c1_crash_on_missing_value :
    buildHeatMap itemsC1 cfgC1 none = .crash ∧
    itemsC1 ≠ [] ∧ (filteredOf itemsC1 cfgC1 none).length = 3 := by
  decide

/-! ## Claim C2 -/

/-- C2: whenever `buildHeatMap` returns a matrix, the returned `W` and `H`
are equal, both equal
`S = clamp(round(clamp(sqrt(max(N,1))/6, 0, 1) * (13 - 9) + 9), 9, 13)`
(with JS `clamp(v,a,b) = max(a, min(b,v))` and `round x = ⌊x + 1/2⌋`), and
therefore both lie within `[9, 13]`. -/
theorem c2_grid_bounds (items : List Result) (cfg : HeatMapConfig)
    (zr : Option (List (String × RangeQ))) (m : HeatMapMatrix)
    (h : buildHeatMap items cfg zr = .matrix m) :
    m.W = m.H ∧ 9 ≤ m.W ∧ m.W ≤ 13 ∧
    (m.W : ℤ) = Max.max 9 (Min.min 13
      ⌊Max.max 0 (Min.min 1 (Real.sqrt (Max.max (m.N : ℝ) 1) / 6)) * (13 - 9) + 9 + 1/2⌋) := by
  obtain ⟨-, -, -, hm⟩ := buildHeatMap_matrix_iff.mp h
  subst hm
  exact ⟨rfl, gridSide_ge _, gridSide_le _, gridSide_spec _⟩

/-- Concrete input for the C2 witness: one result, default axes. -/
def itemsC2 : List Result := [⟨"a", [("q", 1)], 1⟩]

/-- Witness for C2 at a concrete input (N = 1, so S = 10). -/
theorem c2_grid_bounds_witness :
    (matrixOf itemsC2 {} none).W = (matrixOf itemsC2 {} none).H ∧
    9 ≤ (matrixOf itemsC2 {} none).W ∧ (matrixOf itemsC2 {} none).W ≤ 13 ∧
    ((matrixOf itemsC2 {} none).W : ℤ) = Max.max 9 (Min.min 13
      ⌊Max.max 0 (Min.min 1 (Real.sqrt (Max.max ((matrixOf itemsC2 {} none).N : ℝ) 1) / 6))
        * (13 - 9) + 9 + 1/2⌋) :=
  c2_grid_bounds itemsC2 {} none (matrixOf itemsC2 {} none) (by decide)

/-! ## Claim C4 -/

lemma list_sum_range_map (f : ℕ → ℕ) (n : ℕ) :
    ((List.range n).map f).sum = ∑ i ∈ Finset.range n, f i := by
  induction n with
  | zero => simp
  | succ k ih =>
    rw [List.range_succ, List.map_append, List.sum_append, Finset.sum_range_succ, ih]
    simp

/-- The clamped bin index always lands inside the grid. -/
lemma binIndex_lt (S : ℕ) (c : Option ℚ) (hS : 0 < S) : binIndex S c < S := by
  unfold binIndex
  generalize ⌊(c.getD 0) * (S : ℚ)⌋ = z
  omega

lemma indicator_grid_sum (Y X fy gx : ℕ) (hY : fy < Y) (hX : gx < X) :
    (∑ yi ∈ Finset.range Y, ∑ xi ∈ Finset.range X,
      (if fy = yi ∧ gx = xi then (1:ℕ) else 0)) = 1 := by
  have inner : ∀ yi, (∑ xi ∈ Finset.range X, (if fy = yi ∧ gx = xi then (1:ℕ) else 0))
      = if fy = yi then 1 else 0 := by
    intro yi
    by_cases hy : fy = yi
    · simp only [hy, true_and]
      simp [Finset.sum_ite_eq, Finset.mem_range.mpr hX]
    · simp [hy]
  simp only [inner]
  simp [Finset.sum_ite_eq, Finset.mem_range.mpr hY]

/-- Partition argument: classifying each element of `l` by a pair of bin
indices inside the grid and summing the class sizes recovers `l.length`. -/
lemma sum_filter_grid {α : Type} (l : List α) (f g : α → ℕ) (Y X : ℕ)
    (h : ∀ a ∈ l, f a < Y ∧ g a < X) :
    (∑ yi ∈ Finset.range Y, ∑ xi ∈ Finset.range X,
      (l.filter (fun a => decide (f a = yi) && decide (g a = xi))).length) = l.length := by
  induction l with
  | nil => simp
  | cons a t ih =>
    have ha := h a (List.mem_cons_self a t)
    have ht : ∀ b ∈ t, f b < Y ∧ g b < X := fun b hb => h b (List.mem_cons_of_mem _ hb)
    have hsplit : ∀ yi xi,
        ((a :: t).filter (fun b => decide (f b = yi) && decide (g b = xi))).length
          = (t.filter (fun b => decide (f b = yi) && decide (g b = xi))).length
            + (if f a = yi ∧ g a = xi then 1 else 0) := by
      intro yi xi
      rw [List.filter_cons]
      by_cases hc : f a = yi ∧ g a = xi
      · simp [hc.1, hc.2]
      · have hb : (decide (f a = yi) && decide (g a = xi)) = false := by
          rcases Decidable.not_and_iff_or_not.mp hc with h' | h' <;> simp [h']
        simp [hb, hc]
    simp only [hsplit]
    simp only [Finset.sum_add_distrib]
    rw [ih ht, indicator_grid_sum Y X (f a) (g a) ha.1 ha.2]
    simp

lemma mkCell_count (xp yp : List String) (bucket : List CItem) (yi xi : ℕ) :
    (mkCell xp yp bucket yi xi).count = bucket.length := by
  unfold mkCell
  split_ifs with h h2
  · simp [List.isEmpty_iff.mp h]
  · rfl
  · rfl

lemma centeredOf_length (items : List Result) (cfg : HeatMapConfig)
    (zr : Option (List (String × RangeQ))) :
    (centeredOf items cfg zr).length = (filteredOf items cfg zr).length := by
  unfold centeredOf withCoordsOf assignCoords
  simp [List.length_map, List.length_mapIdx]

lemma cellsOf_count_sum (items : List Result) (cfg : HeatMapConfig)
    (zr : Option (List (String × RangeQ))) :
    ((cellsOf items cfg zr).map (fun row => (row.map Cell.count).sum)).sum
      = (centeredOf items cfg zr).length := by
  have hS : 0 < gridOf items cfg zr := gridSide_pos _
  unfold cellsOf
  rw [List.map_map, list_sum_range_map]
  trans (∑ yi ∈ Finset.range (gridOf items cfg zr),
          ∑ xi ∈ Finset.range (gridOf items cfg zr), (bucketOf items cfg zr yi xi).length)
  · apply Finset.sum_congr rfl
    intro yi _
    simp only [Function.comp_apply]
    rw [List.map_map, list_sum_range_map]
    apply Finset.sum_congr rfl
    intro xi _
    simp only [Function.comp_apply]
    exact mkCell_count _ _ _ _ _
  · have hmem : ∀ it ∈ centeredOf items cfg zr,
        binIndex (gridOf items cfg zr) it.yCentered < gridOf items cfg zr ∧
        binIndex (gridOf items cfg zr) it.xCentered < gridOf items cfg zr :=
      fun it _ => ⟨binIndex_lt _ _ hS, binIndex_lt _ _ hS⟩
    exact sum_filter_grid (centeredOf items cfg zr)
      (fun it => binIndex (gridOf items cfg zr) it.yCentered)
      (fun it => binIndex (gridOf items cfg zr) it.xCentered)
      (gridOf items cfg zr) (gridOf items cfg zr) hmem

lemma sumCounts_matrixOf (items : List Result) (cfg : HeatMapConfig)
    (zr : Option (List (String × RangeQ))) :
    sumCounts (matrixOf items cfg zr) = (filteredOf items cfg zr).length := by
  have h1 : sumCounts (matrixOf items cfg zr)
      = ((cellsOf items cfg zr).map (fun row => (row.map Cell.count).sum)).sum := rfl
  rw [h1, cellsOf_count_sum, centeredOf_length]

/-- C4: for every non-null `HeatMapMatrix` returned by `buildHeatMap`, the
sum of the `count` fields over all `H × W` cells equals the matrix's `N`:
the binning loop assigns each filtered result to exactly one cell (its bin
indices are clamped into `[0, S-1]`). -/
theorem c4_count_conservation (items : List Result) (cfg : HeatMapConfig)
    (zr : Option (List (String × RangeQ))) (m : HeatMapMatrix)
    (h : buildHeatMap items cfg zr = .matrix m) :
    sumCounts m = m.N := by
  obtain ⟨-, -, -, hm⟩ := buildHeatMap_matrix_iff.mp h
  subst hm
  exact sumCounts_matrixOf items cfg zr

/-- Concrete input for the C4 witness. -/
def itemsC4 : List Result :=
  [⟨"a", [("p1", 1), ("p2", 5)], 1⟩, ⟨"b", [("p1", 2), ("p2", 6)], 2⟩]

def cfgC4 : HeatMapConfig := { xAxis := some ["p1"], yAxis := some ["p2"] }

/-- Witness for C4 at a concrete input (2 results, parameter coordinates). -/
theorem c4_count_conservation_witness :
    sumCounts (matrixOf itemsC4 cfgC4 none) = (matrixOf itemsC4 cfgC4 none).N :=
  c4_count_conservation itemsC4 cfgC4 none (matrixOf itemsC4 cfgC4 none) (by decide)

/-! ## Claim C3 -/

lemma minQ_eq_none_iff (l : List ℚ) : minQ l = none ↔ l = [] := by
  cases l <;> simp [minQ]

lemma maxQ_eq_none_iff (l : List ℚ) : maxQ l = none ↔ l = [] := by
  cases l <;> simp [maxQ]

/-- The scanned minimum is at most the scanned maximum. -/
lemma minQ_le_maxQ (l : List ℚ) (a b : ℚ) (ha : minQ l = some a) (hb : maxQ l = some b) :
    a ≤ b := by
  cases l with
  | nil => simp [minQ] at ha
  | cons v rest =>
    cases hrest : minQ rest with
    | none =>
      have hnil : rest = [] := (minQ_eq_none_iff rest).mp hrest
      subst hnil
      simp only [minQ] at ha
      simp only [maxQ] at hb
      simp only [Option.some.injEq] at ha hb
      rw [← ha, ← hb]
    | some m =>
      cases hmaxrest : maxQ rest with
      | none =>
        have hnil : rest = [] := (maxQ_eq_none_iff rest).mp hmaxrest
        subst hnil
        simp [minQ] at hrest
      | some M =>
        simp only [minQ, hrest, Option.some.injEq] at ha
        simp only [maxQ, hmaxrest, Option.some.injEq] at hb
        rw [← ha, ← hb]
        exact le_trans (min_le_left _ _) (le_max_left _ _)

lemma lookup_computeRanges (items : List Result) (keys : List String) (k : String)
    (hk : k ∈ keys) :
    (computeRanges items keys).lookup k = some (rangeOf items k) := by
  induction keys with
  | nil => cases hk
  | cons a t ih =>
    have hsplit : computeRanges items (a :: t)
        = (a, rangeOf items a) :: computeRanges items t := rfl
    rw [hsplit]
    by_cases hak : k = a
    · subst hak
      simp [List.lookup]
    · rcases List.mem_cons.mp hk with h | h
      · exact absurd h hak
      · have hbeq : (k == a) = false := by simpa using hak
        simp only [List.lookup, hbeq]
        exact ih h

lemma mem_dedupFirstAux (l : List String) : ∀ (seen : List String) (a : String),
    a ∈ dedupFirstAux l seen ↔ a ∈ l ∧ a ∉ seen := by
  induction l with
  | nil => intro seen a; simp [dedupFirstAux]
  | cons b t ih =>
    intro seen a
    unfold dedupFirstAux
    by_cases hb : seen.contains b
    · rw [if_pos hb, ih]
      have hbseen : b ∈ seen := by simpa using hb
      constructor
      · rintro ⟨hat, has⟩
        exact ⟨List.mem_cons_of_mem _ hat, has⟩
      · rintro ⟨hab, has⟩
        rcases List.mem_cons.mp hab with rfl | hat
        · exact absurd hbseen has
        · exact ⟨hat, has⟩
    · rw [if_neg hb]
      have hbseen : b ∉ seen := by simpa using hb
      constructor
      · intro hmem
        rcases List.mem_cons.mp hmem with rfl | hmem'
        · exact ⟨List.mem_cons_self _ _, hbseen⟩
        · obtain ⟨hat, has⟩ := (ih (b :: seen) a).mp hmem'
          exact ⟨List.mem_cons_of_mem _ hat,
            fun hs => has (List.mem_cons_of_mem _ hs)⟩
      · rintro ⟨hab, has⟩
        rcases List.mem_cons.mp hab with rfl | hat
        · exact List.mem_cons_self _ _
        · by_cases hab2 : a = b
          · subst hab2; exact List.mem_cons_self _ _
          · refine List.mem_cons_of_mem _ ((ih (b :: seen) a).mpr ⟨hat, ?_⟩)
            intro hs
            rcases List.mem_cons.mp hs with h | h
            · exact hab2 h
            · exact has h

lemma mem_dedupFirst (l : List String) (a : String) : a ∈ dedupFirst l ↔ a ∈ l := by
  unfold dedupFirst
  rw [mem_dedupFirstAux]
  simp

/-- The source's per-key validity check, in terms of the range over the
filtered set: it holds iff the key has both bounds and they differ, i.e.
iff `min < max`. -/
lemma rangeValidOn_iff (F : List Result) (keys : List String) (k : String) (hk : k ∈ keys) :
    rangeValidOn (computeRanges F keys) k = true ↔
      ∃ mn mx : ℚ, (rangeOf F k).min = some mn ∧ (rangeOf F k).max = some mx ∧ mn < mx := by
  unfold rangeValidOn
  rw [lookup_computeRanges F keys k hk]
  cases hmin : (rangeOf F k).min with
  | none => simp [hmin]
  | some mn =>
    cases hmax : (rangeOf F k).max with
    | none => simp [hmin, hmax]
    | some mx =>
      have hle : mn ≤ mx := by
        have h1 : minQ (F.filterMap (fun it => it.params.lookup k)) = some mn := by
          simpa [rangeOf] using hmin
        have h2 : maxQ (F.filterMap (fun it => it.params.lookup k)) = some mx := by
          simpa [rangeOf] using hmax
        exact minQ_le_maxQ _ mn mx h1 h2
      simp only [hmin, hmax, Option.isSome_some, Bool.true_and, Bool.and_eq_true,
        decide_eq_true_eq, ne_eq, Option.some.injEq, true_and]
      constructor
      · intro hne
        exact ⟨mn, mx, rfl, rfl, lt_of_le_of_ne hle (fun he => hne he.symm)⟩
      · rintro ⟨mn', mx', hmn', hmx', hlt⟩
        rw [← hmn', ← hmx'] at hlt
        exact fun he => absurd he.symm (ne_of_lt hlt)

lemma xRangeValid_iff (items : List Result) (cfg : HeatMapConfig)
    (zr : Option (List (String × RangeQ))) :
    xRangeValidOf items cfg zr = true ↔
      ∃ k ∈ xParamsOf cfg, ∃ mn mx : ℚ,
        (rangeOf (filteredOf items cfg zr) k).min = some mn ∧
        (rangeOf (filteredOf items cfg zr) k).max = some mx ∧ mn < mx := by
  unfold xRangeValidOf rangesOf
  rw [List.any_eq_true]
  refine exists_congr (fun k => and_congr_right (fun hk => ?_))
  exact rangeValidOn_iff _ _ k
    ((mem_dedupFirst _ k).mpr (List.mem_append.mpr (Or.inl hk)))

lemma yRangeValid_iff (items : List Result) (cfg : HeatMapConfig)
    (zr : Option (List (String × RangeQ))) :
    yRangeValidOf items cfg zr = true ↔
      ∃ k ∈ yParamsOf cfg, ∃ mn mx : ℚ,
        (rangeOf (filteredOf items cfg zr) k).min = some mn ∧
        (rangeOf (filteredOf items cfg zr) k).max = some mx ∧ mn < mx := by
  unfold yRangeValidOf rangesOf
  rw [List.any_eq_true]
  refine exists_congr (fun k => and_congr_right (fun hk => ?_))
  exact rangeValidOn_iff _ _ k
    ((mem_dedupFirst _ k).mpr (List.mem_append.mpr (Or.inr hk)))

lemma centerOf_idx (items : List Result) (cfg : HeatMapConfig)
    (zr : Option (List (String × RangeQ)))
    (hidx : useIndexCoordsOf items cfg zr = true) :
    centerOf items cfg zr = (some (1/2), some (1/2)) := by
  unfold centerOf
  rw [if_pos hidx]

/-- On the index path, the `i`-th decorated result carries the row-major
tiling coordinates. -/
lemma withCoords_idxCoord (items : List Result) (cfg : HeatMapConfig)
    (zr : Option (List (String × RangeQ)))
    (hidx : useIndexCoordsOf items cfg zr = true)
    (i : ℕ) (it : WithCoords) (hit : (withCoordsOf items cfg zr)[i]? = some it) :
    it.xCoord = some (idxCoordX (filteredOf items cfg zr).length i) ∧
    it.yCoord = some (idxCoordY (filteredOf items cfg zr).length i) := by
  unfold withCoordsOf assignCoords at hit
  rw [List.getElem?_mapIdx] at hit
  cases hl : (filteredOf items cfg zr)[i]? with
  | none => rw [hl] at hit; simp at hit
  | some r =>
    rw [hl] at hit
    rw [hidx] at hit
    simp only [Option.map_some', if_true] at hit
    obtain rfl := Option.some.inj hit
    exact ⟨rfl, rfl⟩

/-- On the index path, centering is skipped: centered coordinates equal
the raw coordinates. -/
lemma centered_skip (items : List Result) (cfg : HeatMapConfig)
    (zr : Option (List (String × RangeQ)))
    (hidx : useIndexCoordsOf items cfg zr = true) :
    ∀ it ∈ centeredOf items cfg zr, it.xCentered = it.xCoord ∧ it.yCentered = it.yCoord := by
  intro it hit
  simp only [centeredOf, List.mem_map] at hit
  obtain ⟨w, hw, rfl⟩ := hit
  simp [hidx]

/-- C3: index coordinates (row-major tiling on a `ceil(sqrt N) × ceil(N/cols)`
grid) are used exactly when either axis group has no key with a
non-degenerate min/max range over the filtered set, or the post-filter
count is at least 100 (inclusive); on that path centering is skipped (the
centered coordinates equal the raw ones) and the returned `centerX` and
`centerY` both equal `0.5`. -/
theorem c3_index_coordinates (items : List Result) (cfg : HeatMapConfig)
    (zr : Option (List (String × RangeQ))) (m : HeatMapMatrix)
    (h : buildHeatMap items cfg zr = .matrix m) :
    (useIndexCoordsOf items cfg zr = true ↔
      ((¬ ∃ k ∈ xParamsOf cfg, ∃ mn mx : ℚ,
          (rangeOf (filteredOf items cfg zr) k).min = some mn ∧
          (rangeOf (filteredOf items cfg zr) k).max = some mx ∧ mn < mx) ∨
       (¬ ∃ k ∈ yParamsOf cfg, ∃ mn mx : ℚ,
          (rangeOf (filteredOf items cfg zr) k).min = some mn ∧
          (rangeOf (filteredOf items cfg zr) k).max = some mx ∧ mn < mx) ∨
       100 ≤ (filteredOf items cfg zr).length)) ∧
    (useIndexCoordsOf items cfg zr = true →
      m.centerX = some (1/2) ∧ m.centerY = some (1/2) ∧
      (∀ i : ℕ, ∀ it : WithCoords, (withCoordsOf items cfg zr)[i]? = some it →
        it.xCoord = some (idxCoordX (filteredOf items cfg zr).length i) ∧
        it.yCoord = some (idxCoordY (filteredOf items cfg zr).length i)) ∧
      (∀ it ∈ centeredOf items cfg zr,
        it.xCentered = it.xCoord ∧ it.yCentered = it.yCoord)) := by
  obtain ⟨-, -, -, hm⟩ := buildHeatMap_matrix_iff.mp h
  subst hm
  constructor
  · have hx := xRangeValid_iff items cfg zr
    have hy := yRangeValid_iff items cfg zr
    unfold useIndexCoordsOf
    simp only [Bool.or_eq_true, Bool.not_eq_true', Bool.eq_false_iff, ne_eq,
      decide_eq_true_eq]
    rw [hx, hy]
    rw [or_assoc]
  · intro hidx
    refine ⟨?_, ?_, ?_, centered_skip items cfg zr hidx⟩
    · show (centerOf items cfg zr).1 = some (1/2)
      rw [centerOf_idx items cfg zr hidx]
    · show (centerOf items cfg zr).2 = some (1/2)
      rw [centerOf_idx items cfg zr hidx]
    · intro i it hit
      exact withCoords_idxCoord items cfg zr hidx i it hit

/-- Concrete input for the C3 witness: the `p1` range is degenerate, so
index coordinates are used. -/
def itemsC3 : List Result :=
  [⟨"a", [("p1", 5), ("p2", 1)], 1⟩, ⟨"b", [("p1", 5), ("p2", 2)], 2⟩]

def cfgC3 : HeatMapConfig := { xAxis := some ["p1"], yAxis := some ["p2"] }

/-- Witness for C3 at a concrete input. -/
theorem c3_index_coordinates_witness :
    (useIndexCoordsOf itemsC3 cfgC3 none = true ↔
      ((¬ ∃ k ∈ xParamsOf cfgC3, ∃ mn mx : ℚ,
          (rangeOf (filteredOf itemsC3 cfgC3 none) k).min = some mn ∧
          (rangeOf (filteredOf itemsC3 cfgC3 none) k).max = some mx ∧ mn < mx) ∨
       (¬ ∃ k ∈ yParamsOf cfgC3, ∃ mn mx : ℚ,
          (rangeOf (filteredOf itemsC3 cfgC3 none) k).min = some mn ∧
          (rangeOf (filteredOf itemsC3 cfgC3 none) k).max = some mx ∧ mn < mx) ∨
       100 ≤ (filteredOf itemsC3 cfgC3 none).length)) ∧
    (useIndexCoordsOf itemsC3 cfgC3 none = true →
      (matrixOf itemsC3 cfgC3 none).centerX = some (1/2) ∧
      (matrixOf itemsC3 cfgC3 none).centerY = some (1/2) ∧
      (∀ i : ℕ, ∀ it : WithCoords, (withCoordsOf itemsC3 cfgC3 none)[i]? = some it →
        it.xCoord = some (idxCoordX (filteredOf itemsC3 cfgC3 none).length i) ∧
        it.yCoord = some (idxCoordY (filteredOf itemsC3 cfgC3 none).length i)) ∧
      (∀ it ∈ centeredOf itemsC3 cfgC3 none,
        it.xCentered = it.xCoord ∧ it.yCentered = it.yCoord)) :=
  c3_index_coordinates itemsC3 cfgC3 none (matrixOf itemsC3 cfgC3 none) (by decide)

/-! ## List minimum/maximum attainment lemmas -/

lemma minQ_mem (l : List ℚ) (a : ℚ) (h : minQ l = some a) : a ∈ l := by
  induction l with
  | nil => simp [minQ] at h
  | cons v rest ih =>
    cases hrest : minQ rest with
    | none =>
      simp only [minQ, hrest, Option.some.injEq] at h
      simp [← h]
    | some m =>
      simp only [minQ, hrest, Option.some.injEq] at h
      rcases min_choice v m with hc | hc
      · rw [hc] at h
        simp [← h]
      · rw [hc] at h
        exact List.mem_cons_of_mem _ (ih (by rw [hrest, h]))

lemma maxQ_mem (l : List ℚ) (a : ℚ) (h : maxQ l = some a) : a ∈ l := by
  induction l with
  | nil => simp [maxQ] at h
  | cons v rest ih =>
    cases hrest : maxQ rest with
    | none =>
      simp only [maxQ, hrest, Option.some.injEq] at h
      simp [← h]
    | some m =>
      simp only [maxQ, hrest, Option.some.injEq] at h
      rcases max_choice v m with hc | hc
      · rw [hc] at h
        simp [← h]
      · rw [hc] at h
        exact List.mem_cons_of_mem _ (ih (by rw [hrest, h]))

lemma minQ_le (l : List ℚ) : ∀ (a : ℚ), minQ l = some a → ∀ x ∈ l, a ≤ x := by
  induction l with
  | nil => intro a h x hx; cases hx
  | cons v rest ih =>
    intro a h x hx
    cases hrest : minQ rest with
    | none =>
      have hnil : rest = [] := (minQ_eq_none_iff rest).mp hrest
      subst hnil
      simp only [minQ, Option.some.injEq] at h
      rcases List.mem_cons.mp hx with rfl | hx'
      · rw [← h]
      · cases hx'
    | some m =>
      simp only [minQ, hrest, Option.some.injEq] at h
      rcases List.mem_cons.mp hx with rfl | hx'
      · rw [← h]; exact min_le_left _ _
      · exact le_trans (by rw [← h]; exact min_le_right _ _) (ih m hrest x hx')

lemma le_maxQ (l : List ℚ) : ∀ (a : ℚ), maxQ l = some a → ∀ x ∈ l, x ≤ a := by
  induction l with
  | nil => intro a h x hx; cases hx
  | cons v rest ih =>
    intro a h x hx
    cases hrest : maxQ rest with
    | none =>
      have hnil : rest = [] := (maxQ_eq_none_iff rest).mp hrest
      subst hnil
      simp only [maxQ, Option.some.injEq] at h
      rcases List.mem_cons.mp hx with rfl | hx'
      · rw [← h]
      · cases hx'
    | some m =>
      simp only [maxQ, hrest, Option.some.injEq] at h
      rcases List.mem_cons.mp hx with rfl | hx'
      · rw [← h]; exact le_max_left _ _
      · exact le_trans (ih m hrest x hx') (by rw [← h]; exact le_max_right _ _)

/-! ## Claim C5 -/

/-- Locating a cell of a built matrix: `cells[yi][xi]` is the aggregation
of bucket `(yi, xi)`. -/
lemma getCell_matrixOf (items : List Result) (cfg : HeatMapConfig)
    (zr : Option (List (String × RangeQ))) (yi xi : ℕ) (c : Cell)
    (hc : getCell (matrixOf items cfg zr) yi xi = some c) :
    c = mkCell (xParamsOf cfg) (yParamsOf cfg) (bucketOf items cfg zr yi xi) yi xi := by
  unfold getCell matrixOf cellsOf at hc
  simp only [List.getElem?_map] at hc
  cases h1 : (List.range (gridOf items cfg zr))[yi]? with
  | none => rw [h1] at hc; simp at hc
  | some y =>
    have hy : y = yi := by
      rcases Nat.lt_or_ge yi (gridOf items cfg zr) with hlt | hge
      · rw [List.getElem?_range hlt] at h1
        exact (Option.some.inj h1).symm
      · rw [List.getElem?_eq_none (by simpa using hge)] at h1
        cases h1
    subst hy
    rw [h1] at hc
    simp only [Option.map_some', Option.some_bind, List.getElem?_map] at hc
    cases h2 : (List.range (gridOf items cfg zr))[xi]? with
    | none => rw [h2] at hc; simp at hc
    | some x =>
      have hx : x = xi := by
        rcases Nat.lt_or_ge xi (gridOf items cfg zr) with hlt | hge
        · rw [List.getElem?_range hlt] at h2
          exact (Option.some.inj h2).symm
        · rw [List.getElem?_eq_none (by simpa using hge)] at h2
          cases h2
      subst hx
      rw [h2] at hc
      simp only [Option.map_some', Option.some.injEq] at hc
      exact hc.symm

/-- What `zoomRanges = null` actually means for a built cell: every axis
key is valueless across the cell's results (the source deletes exactly the
keys whose `min` computed to `null`; degenerate `min = max` ranges are
kept). -/
lemma mkCell_zoom_none_iff (xp yp : List String) (bucket : List CItem) (yi xi : ℕ) :
    (mkCell xp yp bucket yi xi).zoomRanges = none ↔
      ∀ k ∈ xp ++ yp, ∀ it ∈ (mkCell xp yp bucket yi xi).results,
        it.base.params.lookup k = none := by
  have key : ((computeRanges (bucket.map CItem.base) (xp ++ yp)).filter
      (fun e => e.2.min.isSome)) = [] ↔
      ∀ k ∈ xp ++ yp, ∀ it ∈ bucket, it.base.params.lookup k = none := by
    rw [List.filter_eq_nil_iff]
    constructor
    · intro hall k hk it hit
      have hmem : (k, rangeOf (bucket.map CItem.base) k)
          ∈ computeRanges (bucket.map CItem.base) (xp ++ yp) :=
        List.mem_map.mpr ⟨k, hk, rfl⟩
      have hns := hall _ hmem
      have hminnone : (rangeOf (bucket.map CItem.base) k).min = none :=
        Option.not_isSome_iff_eq_none.mp hns
      have hvals := (minQ_eq_none_iff _).mp hminnone
      exact (List.filterMap_eq_nil_iff).mp hvals it.base (List.mem_map_of_mem _ hit)
    · intro hall e he
      obtain ⟨k, hk, rfl⟩ := List.mem_map.mp he
      have hnone : (rangeOf (bucket.map CItem.base) k).min = none := by
        show minQ _ = none
        rw [minQ_eq_none_iff, List.filterMap_eq_nil_iff]
        intro r hr
        obtain ⟨b, hb, rfl⟩ := List.mem_map.mp hr
        exact hall k hk b hb
      simp [hnone]
  unfold mkCell
  split_ifs with h h2
  · simp
  · simp only [List.isEmpty_iff] at h2
    constructor
    · intro _ k hk it hit
      exact key.mp h2 k hk it hit
    · intro _
      rfl
  · constructor
    · intro hcontra
      exact absurd hcontra (by simp)
    · intro hall
      have hkept := key.mpr (fun k hk it hit => hall k hk it hit)
      rw [List.isEmpty_iff] at h2
      exact absurd hkept h2

/-- Concrete input for the C5 counterexample: one result with values for
both axis keys. -/
def itemsC5 : List Result := [⟨"r0", [("p1", 3), ("p2", 4)], 1⟩]

def cfgC5 : HeatMapConfig := { xAxis := some ["p1"], yAxis := some ["p2"] }

/-- C5 counterexample: the claim says a cell whose contained parameter
ranges are all degenerate has `zoomRanges = null`.  On `itemsC5` the
matrix's cell `(5,5)` holds the single result, all its contained ranges
are degenerate (`p1: [3,3]`, `p2: [4,4]`), yet `zoomRanges` is non-null —
the source only deletes keys whose `min` computed to `null`. -/
theorem c5_counterexample :
    buildHeatMap itemsC5 cfgC5 none = .matrix (matrixOf itemsC5 cfgC5 none) ∧
    (getCell (matrixOf itemsC5 cfgC5 none) 5 5).map Cell.count = some 1 ∧
    (getCell (matrixOf itemsC5 cfgC5 none) 5 5).map Cell.zoomRanges
      = some (some [("p1", ⟨some 3, some 3⟩), ("p2", ⟨some 4, some 4⟩)]) := by
  decide

/-- C5 (amended): in every returned matrix, a cell's `zoomRanges` field is
`null` iff no axis key has a value among the cell's results (in particular
for empty cells); a cell with at least one axis-key value has non-null
`zoomRanges` even when all its contained ranges are degenerate. -/
theorem c5_zoom_null_iff (items : List Result) (cfg : HeatMapConfig)
    (zr : Option (List (String × RangeQ))) (m : HeatMapMatrix)
    (h : buildHeatMap items cfg zr = .matrix m)
    (yi xi : ℕ) (c : Cell) (hc : getCell m yi xi = some c) :
    c.zoomRanges = none ↔
      ∀ k ∈ xParamsOf cfg ++ yParamsOf cfg, ∀ it ∈ c.results,
        it.base.params.lookup k = none := by
  obtain ⟨-, -, -, hm⟩ := buildHeatMap_matrix_iff.mp h
  subst hm
  rw [getCell_matrixOf items cfg zr yi xi c hc]
  exact mkCell_zoom_none_iff _ _ _ yi xi

/-- Concrete input for the C5 amended-claim witness. -/
def itemsC5w : List Result := [⟨"w", [("p1", 2), ("p2", 3)], 1⟩]

/-- Witness for the amended C5 at a concrete input (cell `(5,5)`). -/
theorem c5_zoom_null_iff_witness :
    ((mkCell (xParamsOf cfgC5) (yParamsOf cfgC5) (bucketOf itemsC5w cfgC5 none 5 5) 5 5).zoomRanges = none ↔
      ∀ k ∈ xParamsOf cfgC5 ++ yParamsOf cfgC5,
        ∀ it ∈ (mkCell (xParamsOf cfgC5) (yParamsOf cfgC5)
            (bucketOf itemsC5w cfgC5 none 5 5) 5 5).results,
          it.base.params.lookup k = none) :=
  c5_zoom_null_iff itemsC5w cfgC5 none (matrixOf itemsC5w cfgC5 none) (by decide) 5 5
    (mkCell (xParamsOf cfgC5) (yParamsOf cfgC5) (bucketOf itemsC5w cfgC5 none 5 5) 5 5)
    (by decide)

/-! ## Claim C7 -/

lemma filteredOf_nil (cfg : HeatMapConfig) (zr : Option (List (String × RangeQ))) :
    filteredOf [] cfg zr = [] := by
  unfold filteredOf
  cases zr <;> simp

/-- On the index path the engine never throws: every index coordinate is a
number, and centering is skipped, so no NaN can reach the binning loop. -/
lemma crashOf_idx (items : List Result) (cfg : HeatMapConfig)
    (zr : Option (List (String × RangeQ)))
    (hidx : useIndexCoordsOf items cfg zr = true) :
    crashOf items cfg zr = false := by
  unfold crashOf
  rw [List.any_eq_false]
  intro it hit
  simp only [centeredOf, List.mem_map] at hit
  obtain ⟨w, hw, rfl⟩ := hit
  obtain ⟨i, hi⟩ := List.mem_iff_getElem?.mp hw
  obtain ⟨hx, hy⟩ := withCoords_idxCoord items cfg zr hidx i w hi
  simp [hidx, hx, hy]

/-- Concrete input for the C7 counterexample: two results sharing the same
value for every axis key. -/
def itemsC7 : List Result :=
  [⟨"a", [("p1", 1), ("p2", 2)], 1⟩, ⟨"b", [("p1", 1), ("p2", 2)], 2⟩]

def cfgC7 : HeatMapConfig := { xAxis := some ["p1"], yAxis := some ["p2"] }

/-- C7 counterexample: the claim says that on an all-degenerate input
every result's normalized coordinate defaults to `0.5`.  On `itemsC7`
(both results share `p1 = 1`, `p2 = 2`) the engine instead takes the
index-coordinate path: the first result sits in cell `(5,0)` with
`xCoord = 0 ≠ 0.5` (the two results are tiled apart, not stacked at the
center cell). -/
theorem c7_counterexample :
    buildHeatMap itemsC7 cfgC7 none = .matrix (matrixOf itemsC7 cfgC7 none) ∧
    (getCell (matrixOf itemsC7 cfgC7 none) 5 0).map
      (fun c => c.results.map (fun r => r.xCoord)) = some [some 0] ∧
    ((0 : ℚ) ≠ 1/2) := by
  decide

/-- C7 (amended): for every input where at least one result survives
filtering and all surviving results share the same value (or absence) for
every axis key, `buildHeatMap` returns a non-null matrix — all axis ranges
are degenerate, so the index-coordinate path is taken: no division by zero
can occur (`normalizeParam`, whose degenerate-range guard returns `0.5`,
is never invoked), `centerX = centerY = 0.5`, and each result's
coordinates are the row-major index tiling (not `0.5`). -/
theorem c7_degenerate_ranges (items : List Result) (cfg : HeatMapConfig)
    (zr : Option (List (String × RangeQ)))
    (hfil : filteredOf items cfg zr ≠ [])
    (hconst : ∀ k ∈ xParamsOf cfg ++ yParamsOf cfg,
      ∀ r ∈ filteredOf items cfg zr, ∀ r' ∈ filteredOf items cfg zr,
        r.params.lookup k = r'.params.lookup k) :
    buildHeatMap items cfg zr = .matrix (matrixOf items cfg zr) ∧
    (matrixOf items cfg zr).centerX = some (1/2) ∧
    (matrixOf items cfg zr).centerY = some (1/2) ∧
    (∀ i : ℕ, ∀ it : WithCoords, (withCoordsOf items cfg zr)[i]? = some it →
      it.xCoord = some (idxCoordX (filteredOf items cfg zr).length i) ∧
      it.yCoord = some (idxCoordY (filteredOf items cfg zr).length i)) := by
  have hxf : xRangeValidOf items cfg zr = false := by
    by_contra hne
    rw [Bool.not_eq_false] at hne
    obtain ⟨k, hk, mn, mx, hmn, hmx, hlt⟩ := (xRangeValid_iff items cfg zr).mp hne
    have hmn' : minQ ((filteredOf items cfg zr).filterMap
        (fun it => it.params.lookup k)) = some mn := hmn
    have hmx' : maxQ ((filteredOf items cfg zr).filterMap
        (fun it => it.params.lookup k)) = some mx := hmx
    obtain ⟨r1, hr1, hv1⟩ := List.mem_filterMap.mp (minQ_mem _ _ hmn')
    obtain ⟨r2, hr2, hv2⟩ := List.mem_filterMap.mp (maxQ_mem _ _ hmx')
    have heq := hconst k (List.mem_append.mpr (Or.inl hk)) r1 hr1 r2 hr2
    rw [hv1, hv2] at heq
    exact absurd (Option.some.inj heq) (ne_of_lt hlt)
  have hidx : useIndexCoordsOf items cfg zr = true := by
    unfold useIndexCoordsOf
    simp [hxf]
  have hitems : items ≠ [] := by
    intro h
    subst h
    exact hfil (filteredOf_nil cfg zr)
  refine ⟨buildHeatMap_matrix_iff.mpr ⟨hitems, hfil, crashOf_idx items cfg zr hidx, rfl⟩,
    ?_, ?_, ?_⟩
  · show (centerOf items cfg zr).1 = some (1/2)
    rw [centerOf_idx items cfg zr hidx]
  · show (centerOf items cfg zr).2 = some (1/2)
    rw [centerOf_idx items cfg zr hidx]
  · intro i it hit
    exact withCoords_idxCoord items cfg zr hidx i it hit

/-- Concrete input for the C7 amended-claim witness: three results, all
sharing `p1 = 7`, `p2 = 9`. -/
def itemsC7w : List Result :=
  [⟨"u", [("p1", 7), ("p2", 9)], 1⟩, ⟨"v", [("p1", 7), ("p2", 9)], 2⟩,
   ⟨"w", [("p1", 7), ("p2", 9)], 3⟩]

/-- Witness for the amended C7 at a concrete input. -/
theorem c7_degenerate_ranges_witness :
    buildHeatMap itemsC7w cfgC7 none = .matrix (matrixOf itemsC7w cfgC7 none) ∧
    (matrixOf itemsC7w cfgC7 none).centerX = some (1/2) ∧
    (matrixOf itemsC7w cfgC7 none).centerY = some (1/2) ∧
    (∀ i : ℕ, ∀ it : WithCoords, (withCoordsOf itemsC7w cfgC7 none)[i]? = some it →
      it.xCoord = some (idxCoordX (filteredOf itemsC7w cfgC7 none).length i) ∧
      it.yCoord = some (idxCoordY (filteredOf itemsC7w cfgC7 none).length i)) :=
  c7_degenerate_ranges itemsC7w cfgC7 none (by decide) (by decide)

/-! ## Claim C8 -/

/-- Looking a key up in a key-filtered association list is the same as in
the original list, provided the key satisfies the filter. -/
lemma lookup_filter_key {β : Type} (p : String → Bool) (k : String) (hp : p k = true) :
    ∀ (l : List (String × β)),
      List.lookup k (l.filter (fun e => p e.1)) = List.lookup k l := by
  intro l
  induction l with
  | nil => rfl
  | cons e t ih =>
    obtain ⟨a, b⟩ := e
    rw [List.filter_cons]
    by_cases hke : k = a
    · subst hke
      rw [if_pos (by simpa using hp)]
      simp [List.lookup]
    · have hbeq : (k == a) = false := by simpa using hke
      by_cases hpa : p a = true
      · rw [if_pos (by simpa using hpa)]
        simp only [List.lookup, hbeq]
        exact ih
      · rw [if_neg (by simpa using hpa)]
        simp only [List.lookup, hbeq]
        exact ih

lemma all_congr_mem {α : Type} (l : List α) (f g : α → Bool)
    (h : ∀ a ∈ l, f a = g a) : l.all f = l.all g := by
  induction l with
  | nil => rfl
  | cons a t ih =>
    rw [List.all_cons, List.all_cons, h a (List.mem_cons_self a t),
      ih (fun b hb => h b (List.mem_cons_of_mem _ hb))]

/-- Zoom filtering only ever reads `zoomRanges[k]` for axis keys, so
entries under other keys are invisible to the predicate. -/
lemma passesZoom_filter_axis (allKeys : List String) (zr : List (String × RangeQ))
    (it : Result) (pred : String → Bool) (hpred : ∀ k ∈ allKeys, pred k = true) :
    passesZoom allKeys (zr.filter (fun e => pred e.1)) it = passesZoom allKeys zr it := by
  unfold passesZoom
  apply all_congr_mem
  intro k hk
  rw [lookup_filter_key pred k (hpred k hk) zr]

lemma filteredOf_filter_axis (items : List Result) (cfg : HeatMapConfig)
    (zr : List (String × RangeQ)) :
    filteredOf items cfg (some (zr.filter (fun e => (axisKeysOf cfg).contains e.1)))
      = filteredOf items cfg (some zr) := by
  unfold filteredOf
  apply List.filter_congr
  intro it _
  exact passesZoom_filter_axis (axisKeysOf cfg) zr it _
    (fun k hk => by simpa using hk)

/-- The whole engine output is a function of the filtered set (plus the
config): two zoom arguments that filter identically produce identical
results. -/
lemma buildHeatMap_congr (items : List Result) (cfg : HeatMapConfig)
    (z1 z2 : Option (List (String × RangeQ)))
    (hf : filteredOf items cfg z1 = filteredOf items cfg z2) :
    buildHeatMap items cfg z1 = buildHeatMap items cfg z2 := by
  have hr : rangesOf items cfg z1 = rangesOf items cfg z2 := by
    unfold rangesOf; rw [hf]
  have hx : xRangeValidOf items cfg z1 = xRangeValidOf items cfg z2 := by
    unfold xRangeValidOf; rw [hr]
  have hy : yRangeValidOf items cfg z1 = yRangeValidOf items cfg z2 := by
    unfold yRangeValidOf; rw [hr]
  have hu : useIndexCoordsOf items cfg z1 = useIndexCoordsOf items cfg z2 := by
    unfold useIndexCoordsOf; rw [hx, hy, hf]
  have hw : withCoordsOf items cfg z1 = withCoordsOf items cfg z2 := by
    unfold withCoordsOf; rw [hf, hr, hu]
  have hs : sortedOf items cfg z1 = sortedOf items cfg z2 := by
    unfold sortedOf; rw [hw]
  have hk : kOf items cfg z1 = kOf items cfg z2 := by
    unfold kOf; rw [hs]
  have ht : topOf items cfg z1 = topOf items cfg z2 := by
    unfold topOf; rw [hs, hk]
  have hc : centerOf items cfg z1 = centerOf items cfg z2 := by
    unfold centerOf; rw [hu, ht]
  have hcen : centeredOf items cfg z1 = centeredOf items cfg z2 := by
    unfold centeredOf; rw [hu, hc, hw]
  have hcr : crashOf items cfg z1 = crashOf items cfg z2 := by
    unfold crashOf; rw [hcen]
  have hg : gridOf items cfg z1 = gridOf items cfg z2 := by
    unfold gridOf; rw [hf]
  have hb : bucketOf items cfg z1 = bucketOf items cfg z2 := by
    funext yi xi
    unfold bucketOf; rw [hcen, hg]
  have hcells : cellsOf items cfg z1 = cellsOf items cfg z2 := by
    unfold cellsOf; rw [hg, hb]
  have hsm : scoreMinOf items cfg z1 = scoreMinOf items cfg z2 := by
    unfold scoreMinOf; rw [hcen]
  have hsM : scoreMaxOf items cfg z1 = scoreMaxOf items cfg z2 := by
    unfold scoreMaxOf; rw [hcen]
  have hm : matrixOf items cfg z1 = matrixOf items cfg z2 := by
    unfold matrixOf; rw [hf, hg, hsm, hsM, hc, hcells]
  unfold buildHeatMap
  rw [hf, hcr, hm]

/-- C8: noninterference of malformed zoom keys — for every input, entries
of `zoomRanges` whose keys are not among the (effective) axis keys
`xAxis ∪ yAxis` are silently ignored: the engine's output with the full
`zoomRanges` equals its output with `zoomRanges` restricted to axis keys,
and no error is ever raised for such entries. -/
theorem c8_malformed_zoom_ignored (items : List Result) (cfg : HeatMapConfig)
    (zr : List (String × RangeQ)) :
    buildHeatMap items cfg (some zr)
      = buildHeatMap items cfg
          (some (zr.filter (fun e => (axisKeysOf cfg).contains e.1))) :=
  (buildHeatMap_congr items cfg _ _ (filteredOf_filter_axis items cfg zr)).symm

/-! ## Claim C9 -/

lemma insertLe_length {α : Type} (le : α → α → Bool) (a : α) (l : List α) :
    (insertLe le a l).length = l.length + 1 := by
  induction l with
  | nil => rfl
  | cons b t ih =>
    unfold insertLe
    split_ifs <;> simp [ih]

lemma stableSortBy_length {α : Type} (le : α → α → Bool) (l : List α) :
    (stableSortBy le l).length = l.length := by
  unfold stableSortBy
  suffices h : ∀ (acc : List α), (l.foldl (fun acc a => insertLe le a acc) acc).length
      = acc.length + l.length by
    simpa using h []
  induction l with
  | nil => intro acc; simp
  | cons b t ih =>
    intro acc
    simp only [List.foldl_cons]
    rw [ih (insertLe le b acc), insertLe_length]
    simp only [List.length_cons]
    omega

lemma sortedOf_length (items : List Result) (cfg : HeatMapConfig)
    (zr : Option (List (String × RangeQ))) :
    (sortedOf items cfg zr).length = (filteredOf items cfg zr).length := by
  unfold sortedOf withCoordsOf assignCoords
  rw [stableSortBy_length, List.length_mapIdx]

/-- C9 (implicit): whenever the centering step actually runs (index
coordinates not used, which forces `N < 100`), the `k` of line 864 is
exactly 10 — the `floor(N * 0.06)` term is at most 5 on this path, so the
6% branch is dead — and the top-scoring subset whose coordinate medians
define `centerX`/`centerY` contains exactly `min(N, 10)` results. -/
theorem c9_top_subset_size (items : List Result) (cfg : HeatMapConfig)
    (zr : Option (List (String × RangeQ))) (m : HeatMapMatrix)
    (h : buildHeatMap items cfg zr = .matrix m)
    (hidx : useIndexCoordsOf items cfg zr = false) :
    kOf items cfg zr = 10 ∧
    (topOf items cfg zr).length = Min.min (filteredOf items cfg zr).length 10 := by
  have hn : (filteredOf items cfg zr).length < 100 := by
    unfold useIndexCoordsOf at hidx
    simp only [Bool.or_eq_false_iff, decide_eq_false_iff_not, not_le] at hidx
    exact hidx.2
  have hfloor : (⌊((sortedOf items cfg zr).length : ℚ) * (6/100)⌋).toNat ≤ 5 := by
    rw [Int.toNat_le]
    have hlt : ⌊((sortedOf items cfg zr).length : ℚ) * (6/100)⌋ < 6 := by
      rw [Int.floor_lt]
      have hcast : ((sortedOf items cfg zr).length : ℚ) ≤ 99 := by
        rw [sortedOf_length]
        exact_mod_cast Nat.lt_succ_iff.mp hn
      push_cast
      linarith
    omega
  have hk : kOf items cfg zr = 10 := by
    show Max.max 10 (Min.min ((sortedOf items cfg zr).length)
      ((⌊((sortedOf items cfg zr).length : ℚ) * (6/100)⌋).toNat)) = 10
    omega
  refine ⟨hk, ?_⟩
  unfold topOf
  rw [hk, List.length_take, sortedOf_length]
  omega

/-- Concrete input for the C9 witness: three results with non-degenerate
ranges on both axes, so centering runs. -/
def itemsC9 : List Result :=
  [⟨"a", [("p1", 1), ("p2", 3)], 1⟩, ⟨"b", [("p1", 2), ("p2", 4)], 2⟩,
   ⟨"c", [("p1", 3), ("p2", 5)], 3⟩]

def cfgC9 : HeatMapConfig := { xAxis := some ["p1"], yAxis := some ["p2"] }

/-- Witness for C9 at a concrete input (N = 3, top subset of size 3). -/
theorem c9_top_subset_size_witness :
    kOf itemsC9 cfgC9 none = 10 ∧
    (topOf itemsC9 cfgC9 none).length = Min.min (filteredOf itemsC9 cfgC9 none).length 10 :=
  c9_top_subset_size itemsC9 cfgC9 none (matrixOf itemsC9 cfgC9 none) (by decide) (by decide)

/-! ## Claim C10 -/

/-- The engine reads the config only through the four effective
projections; configs agreeing on them produce identical output. -/
lemma buildHeatMap_cfg_congr (items : List Result) (c1 c2 : HeatMapConfig)
    (zr : Option (List (String × RangeQ)))
    (hx : xParamsOf c1 = xParamsOf c2) (hy : yParamsOf c1 = yParamsOf c2)
    (hfix : fixedOf c1 = fixedOf c2) (hdir : dirOf c1 = dirOf c2) :
    buildHeatMap items c1 zr = buildHeatMap items c2 zr := by
  have haxis : axisKeysOf c1 = axisKeysOf c2 := by
    unfold axisKeysOf; rw [hx, hy]
  have hall : allKeysOf c1 = allKeysOf c2 := by
    unfold allKeysOf; rw [hx, hy]
  have hf : filteredOf items c1 zr = filteredOf items c2 zr := by
    unfold filteredOf; rw [haxis, hfix]
  have hr : rangesOf items c1 zr = rangesOf items c2 zr := by
    unfold rangesOf; rw [hf, hall]
  have hxv : xRangeValidOf items c1 zr = xRangeValidOf items c2 zr := by
    unfold xRangeValidOf; rw [hr, hx]
  have hyv : yRangeValidOf items c1 zr = yRangeValidOf items c2 zr := by
    unfold yRangeValidOf; rw [hr, hy]
  have hu : useIndexCoordsOf items c1 zr = useIndexCoordsOf items c2 zr := by
    unfold useIndexCoordsOf; rw [hxv, hyv, hf]
  have hw : withCoordsOf items c1 zr = withCoordsOf items c2 zr := by
    unfold withCoordsOf; rw [hf, hr, hu, hx, hy]
  have hs : sortedOf items c1 zr = sortedOf items c2 zr := by
    unfold sortedOf; rw [hw, hdir]
  have hk : kOf items c1 zr = kOf items c2 zr := by
    unfold kOf; rw [hs]
  have ht : topOf items c1 zr = topOf items c2 zr := by
    unfold topOf; rw [hs, hk]
  have hc : centerOf items c1 zr = centerOf items c2 zr := by
    unfold centerOf; rw [hu, ht]
  have hcen : centeredOf items c1 zr = centeredOf items c2 zr := by
    unfold centeredOf; rw [hu, hc, hw]
  have hcr : crashOf items c1 zr = crashOf items c2 zr := by
    unfold crashOf; rw [hcen]
  have hg : gridOf items c1 zr = gridOf items c2 zr := by
    unfold gridOf; rw [hf]
  have hb : bucketOf items c1 zr = bucketOf items c2 zr := by
    funext yi xi
    unfold bucketOf; rw [hcen, hg]
  have hcells : cellsOf items c1 zr = cellsOf items c2 zr := by
    unfold cellsOf; rw [hg, hb, hx, hy]
  have hsm : scoreMinOf items c1 zr = scoreMinOf items c2 zr := by
    unfold scoreMinOf; rw [hcen]
  have hsM : scoreMaxOf items c1 zr = scoreMaxOf items c2 zr := by
    unfold scoreMaxOf; rw [hcen]
  have hm : matrixOf items c1 zr = matrixOf items c2 zr := by
    unfold matrixOf; rw [hf, hg, hsm, hsM, hc, hcells, hx, hy]
  unfold buildHeatMap
  rw [hf, hcr, hm]

/-- C10 (implicit): a missing or empty `config.xAxis` does not make
`buildHeatMap` fail or return `null` for that reason — the engine behaves
exactly as if `xAxis` were the substituted default `["x"]`, and a returned
matrix echoes `xKeys = ["x"]` rather than the caller's empty list; the
same holds for `yAxis` with `["y"]`. -/
theorem c10_default_axes (items : List Result) (cfg : HeatMapConfig)
    (zr : Option (List (String × RangeQ)))
    (hx : cfg.xAxis = none ∨ cfg.xAxis = some []) :
    xParamsOf cfg = ["x"] ∧
    buildHeatMap items cfg zr = buildHeatMap items { cfg with xAxis := some ["x"] } zr ∧
    (∀ m : HeatMapMatrix, buildHeatMap items cfg zr = .matrix m → m.xKeys = ["x"]) ∧
    ((cfg.yAxis = none ∨ cfg.yAxis = some []) →
      yParamsOf cfg = ["y"] ∧
      buildHeatMap items cfg zr = buildHeatMap items { cfg with yAxis := some ["y"] } zr ∧
      (∀ m : HeatMapMatrix, buildHeatMap items cfg zr = .matrix m → m.yKeys = ["y"])) := by
  have hxp : xParamsOf cfg = ["x"] := by
    unfold xParamsOf effAxis
    rcases hx with h | h <;> simp [h]
  refine ⟨hxp, ?_, ?_, ?_⟩
  · apply buildHeatMap_cfg_congr items cfg _ zr
    · rw [hxp]
      unfold xParamsOf effAxis
      simp
    · rfl
    · rfl
    · rfl
  · intro m hm
    obtain ⟨-, -, -, hmm⟩ := buildHeatMap_matrix_iff.mp hm
    subst hmm
    exact hxp
  · intro hyax
    have hyp : yParamsOf cfg = ["y"] := by
      unfold yParamsOf effAxis
      rcases hyax with h | h <;> simp [h]
    refine ⟨hyp, ?_, ?_⟩
    · apply buildHeatMap_cfg_congr items cfg _ zr
      · rfl
      · rw [hyp]
        unfold yParamsOf effAxis
        simp
      · rfl
      · rfl
    · intro m hm
      obtain ⟨-, -, -, hmm⟩ := buildHeatMap_matrix_iff.mp hm
      subst hmm
      exact hyp

/-- Concrete input for the C10 witness: a config with both axes absent. -/
def itemsC10 : List Result := [⟨"a", [("q", 1)], 1⟩, ⟨"b", [("q", 2)], 2⟩]

/-- Witness for C10 at a concrete input. -/
theorem c10_default_axes_witness :
    xParamsOf {} = ["x"] ∧
    buildHeatMap itemsC10 {} none
      = buildHeatMap itemsC10 { ({} : HeatMapConfig) with xAxis := some ["x"] } none ∧
    (∀ m : HeatMapMatrix, buildHeatMap itemsC10 {} none = .matrix m → m.xKeys = ["x"]) ∧
    ((({} : HeatMapConfig).yAxis = none ∨ ({} : HeatMapConfig).yAxis = some []) →
      yParamsOf {} = ["y"] ∧
      buildHeatMap itemsC10 {} none
        = buildHeatMap itemsC10 { ({} : HeatMapConfig) with yAxis := some ["y"] } none ∧
      (∀ m : HeatMapMatrix, buildHeatMap itemsC10 {} none = .matrix m → m.yKeys = ["y"])) :=
  c10_default_axes itemsC10 {} none (Or.inl rfl)

/-! ## Claim C6 : supporting lemmas -/

lemma mem_insertLe {α : Type} (le : α → α → Bool) (a x : α) :
    ∀ (l : List α), x ∈ insertLe le a l ↔ x = a ∨ x ∈ l := by
  intro l
  induction l with
  | nil => simp [insertLe]
  | cons b t ih =>
    unfold insertLe
    split_ifs
    · rw [List.mem_cons, ih, List.mem_cons]
      tauto
    · rw [List.mem_cons, List.mem_cons]

lemma mem_stableSortBy {α : Type} (le : α → α → Bool) (x : α) (l : List α) :
    x ∈ stableSortBy le l ↔ x ∈ l := by
  unfold stableSortBy
  suffices h : ∀ (acc : List α), x ∈ l.foldl (fun acc a => insertLe le a acc) acc
      ↔ x ∈ acc ∨ x ∈ l by
    rw [h []]
    simp
  induction l with
  | nil => intro acc; simp
  | cons b t ih =>
    intro acc
    simp only [List.foldl_cons]
    rw [ih (insertLe le b acc), mem_insertLe]
    rw [List.mem_cons]
    tauto

lemma optSum_isSome (l : List (Option ℚ)) (h : ∀ x ∈ l, x.isSome) :
    (optSum l).isSome := by
  unfold optSum
  suffices haux : ∀ (a : ℚ), (l.foldl (fun acc b =>
      match acc, b with
      | some x, some y => some (x + y)
      | _, _ => none) (some a)).isSome by
    exact haux 0
  induction l with
  | nil => intro a; rfl
  | cons x t ih =>
    intro a
    obtain ⟨xv, hxv⟩ := Option.isSome_iff_exists.mp (h x (List.mem_cons_self x t))
    subst hxv
    simp only [List.foldl_cons]
    exact ih (fun y hy => h y (List.mem_cons_of_mem _ hy)) (a + xv)

lemma normalizeParam_isSome_of_some (v : ℚ) (mn mx : Option ℚ) :
    (normalizeParam (some v) mn mx).isSome := by
  cases mn <;> cases mx <;> simp only [normalizeParam] <;> try rfl
  split_ifs <;> rfl

lemma normCoord_isSome (ranges : List (String × RangeQ)) (keys : List String) (it : Result)
    (h : ∀ k ∈ keys, (it.params.lookup k).isSome) :
    (normCoord ranges keys it).isSome := by
  unfold normCoord
  rw [Option.isSome_map']
  apply optSum_isSome
  intro x hx
  obtain ⟨k, hk, rfl⟩ := List.mem_map.mp hx
  obtain ⟨v, hv⟩ := Option.isSome_iff_exists.mp (h k hk)
  rw [hv]
  exact normalizeParam_isSome_of_some v _ _

lemma quantileOpt_isSome (arr : List (Option ℚ)) (q : ℚ)
    (h : ∀ x ∈ arr, x.isSome) : (quantileOpt arr q).isSome := by
  unfold quantileOpt
  split_ifs with he
  · rfl
  · generalize ⌊((arr.length - 1 : ℕ) : ℚ) * q⌋.toNat = base
    cases hn : arr[base + 1]? with
    | none =>
      rw [List.getD_eq_getElem?_getD]
      cases hb : arr[base]? with
      | none => rfl
      | some b => simpa using h b (List.mem_iff_getElem?.mpr ⟨_, hb⟩)
    | some nxt =>
      obtain ⟨nv, rfl⟩ := Option.isSome_iff_exists.mp
        (h nxt (List.mem_iff_getElem?.mpr ⟨_, hn⟩))
      rw [List.getD_eq_getElem?_getD]
      cases hb : arr[base]? with
      | none => rfl
      | some b =>
        obtain ⟨bv, rfl⟩ := Option.isSome_iff_exists.mp
          (h b (List.mem_iff_getElem?.mpr ⟨_, hb⟩))
        rfl

/-- On the parameter-coordinate path the decoration of line 835 ignores
the index, so `withCoords` is a plain map. -/
lemma withCoordsOf_eq_map_of_not_idx (items : List Result) (cfg : HeatMapConfig)
    (zr : Option (List (String × RangeQ)))
    (hu : useIndexCoordsOf items cfg zr = false) :
    withCoordsOf items cfg zr = (filteredOf items cfg zr).map (fun it =>
      { base := it,
        xCoord := normCoord (rangesOf items cfg zr) (xParamsOf cfg) it,
        yCoord := normCoord (rangesOf items cfg zr) (yParamsOf cfg) it }) := by
  unfold withCoordsOf assignCoords
  apply List.ext_getElem?
  intro i
  rw [List.getElem?_mapIdx, List.getElem?_map]
  cases hF : (filteredOf items cfg zr)[i]? with
  | none => rfl
  | some r => simp [hu]

/-- The centering map of lines 872-876, spelled out. -/
lemma centeredOf_eq_map_centered (items : List Result) (cfg : HeatMapConfig)
    (zr : Option (List (String × RangeQ))) :
    centeredOf items cfg zr = (withCoordsOf items cfg zr).map (fun w =>
      { base := w.base, xCoord := w.xCoord, yCoord := w.yCoord,
        xCentered := if useIndexCoordsOf items cfg zr then w.xCoord
          else shiftOpt w.xCoord (centerOf items cfg zr).1,
        yCentered := if useIndexCoordsOf items cfg zr then w.yCoord
          else shiftOpt w.yCoord (centerOf items cfg zr).2 }) := rfl

lemma centerOf_isSome_of_not_idx (items : List Result) (cfg : HeatMapConfig)
    (zr : Option (List (String × RangeQ)))
    (hu : useIndexCoordsOf items cfg zr = false)
    (hall : ∀ w ∈ withCoordsOf items cfg zr, w.xCoord.isSome ∧ w.yCoord.isSome) :
    (centerOf items cfg zr).1.isSome ∧ (centerOf items cfg zr).2.isSome := by
  unfold centerOf
  rw [if_neg (by simp [hu])]
  constructor
  · apply quantileOpt_isSome
    intro x hx
    rw [mem_stableSortBy] at hx
    obtain ⟨w, hw, rfl⟩ := List.mem_map.mp hx
    have hw1 : w ∈ sortedOf items cfg zr := List.mem_of_mem_take hw
    unfold sortedOf at hw1
    rw [mem_stableSortBy] at hw1
    exact (hall w hw1).1
  · apply quantileOpt_isSome
    intro x hx
    rw [mem_stableSortBy] at hx
    obtain ⟨w, hw, rfl⟩ := List.mem_map.mp hx
    have hw1 : w ∈ sortedOf items cfg zr := List.mem_of_mem_take hw
    unfold sortedOf at hw1
    rw [mem_stableSortBy] at hw1
    exact (hall w hw1).2

/-- If every filtered result has a numeric value for every axis key, the
engine cannot throw: on the index path coordinates are always numbers, and
on the parameter path `normalizeParam` never receives a missing value. -/
lemma crashOf_allValues (items : List Result) (cfg : HeatMapConfig)
    (zr : Option (List (String × RangeQ)))
    (h : ∀ r ∈ filteredOf items cfg zr, ∀ k ∈ xParamsOf cfg ++ yParamsOf cfg,
      (r.params.lookup k).isSome) :
    crashOf items cfg zr = false := by
  cases hu : useIndexCoordsOf items cfg zr with
  | true => exact crashOf_idx items cfg zr hu
  | false =>
    have hall : ∀ w ∈ withCoordsOf items cfg zr, w.xCoord.isSome ∧ w.yCoord.isSome := by
      intro w hw
      rw [withCoordsOf_eq_map_of_not_idx items cfg zr hu] at hw
      obtain ⟨r, hr, rfl⟩ := List.mem_map.mp hw
      exact ⟨normCoord_isSome _ _ _ (fun k hk => h r hr k (List.mem_append.mpr (Or.inl hk))),
        normCoord_isSome _ _ _ (fun k hk => h r hr k (List.mem_append.mpr (Or.inr hk)))⟩
    obtain ⟨hcx, hcy⟩ := centerOf_isSome_of_not_idx items cfg zr hu hall
    unfold crashOf
    rw [List.any_eq_false]
    intro it hit
    rw [centeredOf_eq_map_centered items cfg zr] at hit
    obtain ⟨w, hw, rfl⟩ := List.mem_map.mp hit
    obtain ⟨hwx, hwy⟩ := hall w hw
    obtain ⟨xv, hxv⟩ := Option.isSome_iff_exists.mp hwx
    obtain ⟨yv, hyv⟩ := Option.isSome_iff_exists.mp hwy
    obtain ⟨cx, hcx'⟩ := Option.isSome_iff_exists.mp hcx
    obtain ⟨cy, hcy'⟩ := Option.isSome_iff_exists.mp hcy
    simp [hu, hxv, hyv, hcx', hcy', shiftOpt]

lemma clamp_mono {a b : ℚ} (h : a ≤ b) : clamp a ≤ clamp b := by
  unfold clamp
  exact max_le_max le_rfl (min_le_min le_rfl h)

lemma binIndex_some_mono (S : ℕ) {p q : ℚ} (h : p ≤ q) :
    binIndex S (some p) ≤ binIndex S (some q) := by
  unfold binIndex
  simp only [Option.getD_some]
  have hz : ⌊p * (S:ℚ)⌋ ≤ ⌊q * (S:ℚ)⌋ :=
    Int.floor_le_floor (mul_le_mul_of_nonneg_right h (by positivity))
  omega

/-- The pointwise bucket-membership test on the parameter-coordinate path:
result `r` lands in cell `(yi, xi)` iff its shifted normalized coordinates
bin there. -/
def normBinPred (items : List Result) (cfg : HeatMapConfig)
    (zr : Option (List (String × RangeQ))) (yi xi : ℕ) (r : Result) : Bool :=
  decide (binIndex (gridOf items cfg zr)
      (shiftOpt (normCoord (rangesOf items cfg zr) (yParamsOf cfg) r)
        (centerOf items cfg zr).2) = yi)
    && decide (binIndex (gridOf items cfg zr)
      (shiftOpt (normCoord (rangesOf items cfg zr) (xParamsOf cfg) r)
        (centerOf items cfg zr).1) = xi)

lemma map_base_filter {F : List Result} {g : Result → CItem} {p : CItem → Bool}
    {q : Result → Bool} (hg : ∀ r, (g r).base = r) (hpq : ∀ r ∈ F, p (g r) = q r) :
    ((F.map g).filter p).map CItem.base = F.filter q := by
  rw [List.filter_map, List.map_map]
  have h1 : List.filter (p ∘ g) F = List.filter q F :=
    List.filter_congr (fun r hr => by simpa [Function.comp] using hpq r hr)
  rw [h1]
  have h2 : (CItem.base ∘ g) = id := funext (fun r => hg r)
  rw [h2, List.map_id]

/-- On the parameter path, the bucket's underlying results are exactly the
filtered results passing the pointwise bin test (in order). -/
lemma bucketOf_base_of_not_idx (items : List Result) (cfg : HeatMapConfig)
    (zr : Option (List (String × RangeQ)))
    (hu : useIndexCoordsOf items cfg zr = false) (yi xi : ℕ) :
    (bucketOf items cfg zr yi xi).map CItem.base
      = (filteredOf items cfg zr).filter (normBinPred items cfg zr yi xi) := by
  unfold bucketOf
  rw [centeredOf_eq_map_centered, withCoordsOf_eq_map_of_not_idx items cfg zr hu,
    List.map_map]
  exact map_base_filter (fun r => rfl)
    (fun r hr => by simp [normBinPred, Function.comp, hu])

lemma normCoord_single (ranges : List (String × RangeQ)) (k : String) (r : Result)
    (v mn mx : ℚ) (hl : ranges.lookup k = some ⟨some mn, some mx⟩) (hne : mx ≠ mn)
    (hv : r.params.lookup k = some v) :
    normCoord ranges [k] r = some (clamp ((v - mn) / (mx - mn))) := by
  unfold normCoord optSum
  simp [hl, hv, normalizeParam, hne]

lemma binChain_mono (S : ℕ) (mn mx cx : ℚ) (hlt : mn < mx) {p q : ℚ} (hpq : p ≤ q) :
    binIndex S (some (clamp (clamp ((p - mn)/(mx - mn)) - cx + 1/2)))
      ≤ binIndex S (some (clamp (clamp ((q - mn)/(mx - mn)) - cx + 1/2))) := by
  apply binIndex_some_mono
  apply clamp_mono
  have h1 : (p - mn)/(mx - mn) ≤ (q - mn)/(mx - mn) :=
    (div_le_div_iff_of_pos_right (by linarith)).mpr (by linarith)
  have h2 := clamp_mono h1
  linarith

/-- The bin index is monotone in the raw value, so the bins of the
extremes pin the bin of anything between them. -/
lemma binChain_between (S : ℕ) (mn mx cx : ℚ) (hlt : mn < mx) {a v b : ℚ}
    (hav : a ≤ v) (hvb : v ≤ b) (t : ℕ)
    (ha : binIndex S (some (clamp (clamp ((a - mn)/(mx - mn)) - cx + 1/2))) = t)
    (hb : binIndex S (some (clamp (clamp ((b - mn)/(mx - mn)) - cx + 1/2))) = t) :
    binIndex S (some (clamp (clamp ((v - mn)/(mx - mn)) - cx + 1/2))) = t :=
  le_antisymm (hb ▸ binChain_mono S mn mx cx hlt hvb)
    (ha ▸ binChain_mono S mn mx cx hlt hav)

/-- The pointwise bin test, fully evaluated for single-key axes with known
global ranges, centers and values. -/
lemma normBinPred_single (items : List Result) (cfg : HeatMapConfig)
    (zr : Option (List (String × RangeQ))) (kx ky : String)
    (hxp : xParamsOf cfg = [kx]) (hyp : yParamsOf cfg = [ky])
    (gxmn gxmx gymn gymx cxv cyv : ℚ)
    (hlx : (rangesOf items cfg zr).lookup kx = some ⟨some gxmn, some gxmx⟩)
    (hly : (rangesOf items cfg zr).lookup ky = some ⟨some gymn, some gymx⟩)
    (hnex : gxmx ≠ gxmn) (hney : gymx ≠ gymn)
    (hcx : (centerOf items cfg zr).1 = some cxv)
    (hcy : (centerOf items cfg zr).2 = some cyv)
    (r : Result) (v w : ℚ)
    (hv : r.params.lookup kx = some v) (hw : r.params.lookup ky = some w)
    (yi xi : ℕ) :
    normBinPred items cfg zr yi xi r =
      (decide (binIndex (gridOf items cfg zr)
          (some (clamp (clamp ((w - gymn)/(gymx - gymn)) - cyv + 1/2))) = yi)
        && decide (binIndex (gridOf items cfg zr)
          (some (clamp (clamp ((v - gxmn)/(gxmx - gxmn)) - cxv + 1/2))) = xi)) := by
  unfold normBinPred
  rw [hxp, hyp, normCoord_single _ _ _ v gxmn gxmx hlx hnex hv,
    normCoord_single _ _ _ w gymn gymx hly hney hw, hcx, hcy]
  rfl

/-- The zoom predicate, fully evaluated on a two-key range list for a
result carrying both values. -/
lemma passesZoom_pair (kx ky : String) (hkk : kx ≠ ky) (amn amx bmn bmx : ℚ)
    (r : Result) (v w : ℚ)
    (hv : r.params.lookup kx = some v) (hw : r.params.lookup ky = some w) :
    passesZoom [kx, ky] [(kx, ⟨some amn, some amx⟩), (ky, ⟨some bmn, some bmx⟩)] r
      = ((decide (amn ≤ v) && decide (v ≤ amx))
          && (decide (bmn ≤ w) && decide (w ≤ bmx))) := by
  unfold passesZoom
  have h2 : (ky == kx) = false := by simpa using (Ne.symm hkk)
  simp [List.lookup, h2, hv, hw]

/-! ## Claim C6 : counterexample and theorem -/

/-- Concrete input for the C6 counterexample: two results with identical
parameter values. -/
def itemsC6 : List Result :=
  [⟨"a", [("p1", 1), ("p2", 1)], 1⟩, ⟨"b", [("p1", 1), ("p2", 1)], 2⟩]

def cfgC6 : HeatMapConfig := { xAxis := some ["p1"], yAxis := some ["p2"] }

def zrC6 : List (String × RangeQ) :=
  [("p1", ⟨some 1, some 1⟩), ("p2", ⟨some 1, some 1⟩)]

/-- C6 counterexample: on `itemsC6` (degenerate ranges force index
coordinates) the first call bins the two identical results into different
cells; cell `(5,0)` records `count = 1` with `zoomRanges = zrC6`, but
re-invoking `buildHeatMap` with `zrC6` keeps *both* results, so the new
`N = 2 ≠ 1` — drill-down consistency fails as stated. -/
theorem c6_counterexample :
    buildHeatMap itemsC6 cfgC6 none = .matrix (matrixOf itemsC6 cfgC6 none) ∧
    (getCell (matrixOf itemsC6 cfgC6 none) 5 0).map Cell.count = some 1 ∧
    (getCell (matrixOf itemsC6 cfgC6 none) 5 0).map Cell.zoomRanges = some (some zrC6) ∧
    buildHeatMap itemsC6 cfgC6 (some zrC6) = .matrix (matrixOf itemsC6 cfgC6 (some zrC6)) ∧
    (matrixOf itemsC6 cfgC6 (some zrC6)).N = 2 := by
  decide

/-- C6 (amended): drill-down consistency holds on the parameter-coordinate
path for single-key axes when every filtered result carries both axis
values: re-invoking `buildHeatMap` with a cell's non-null `zoomRanges`
returns a matrix whose `N` equals that cell's recorded `count`.  (The
unamended claim fails on the index-coordinate path, where cell ranges can
capture results from other cells — see the counterexample.) -/
theorem c6_drilldown (items : List Result) (cfg : HeatMapConfig)
    (kx ky : String) (m : HeatMapMatrix) (yi xi : ℕ) (c : Cell)
    (zc : List (String × RangeQ))
    (hxp : xParamsOf cfg = [kx]) (hyp : yParamsOf cfg = [ky]) (hkk : kx ≠ ky)
    (h1 : buildHeatMap items cfg none = .matrix m)
    (h2 : useIndexCoordsOf items cfg none = false)
    (h3 : ∀ r ∈ filteredOf items cfg none,
      (r.params.lookup kx).isSome ∧ (r.params.lookup ky).isSome)
    (h4 : getCell m yi xi = some c)
    (h5 : c.zoomRanges = some zc) :
    buildHeatMap items cfg (some zc) = .matrix (matrixOf items cfg (some zc)) ∧
    (matrixOf items cfg (some zc)).N = c.count := by
  obtain ⟨hitems, hFne, hcr0, hm⟩ := buildHeatMap_matrix_iff.mp h1
  subst hm
  have hceq0 := getCell_matrixOf items cfg none yi xi c h4
  rw [hxp, hyp] at hceq0
  -- the bucket and its underlying results
  have hbase := bucketOf_base_of_not_idx items cfg none h2 yi xi
  -- the bucket is nonempty (otherwise zoomRanges would be null)
  have hBne : bucketOf items cfg none yi xi ≠ [] := by
    intro hB
    rw [hceq0, hB] at h5
    simp [mkCell] at h5
  -- every bucket result carries both values
  have hBvals : ∀ b ∈ (bucketOf items cfg none yi xi).map CItem.base,
      (b.params.lookup kx).isSome ∧ (b.params.lookup ky).isSome := by
    intro b hb
    rw [hbase] at hb
    exact h3 b (List.mem_filter.mp hb).1
  -- the x-range over the bucket
  have hvalsxne : ((bucketOf items cfg none yi xi).map CItem.base).filterMap
      (fun it => it.params.lookup kx) ≠ [] := by
    obtain ⟨b0, hb0⟩ := List.exists_mem_of_ne_nil _
      (by simpa using hBne : (bucketOf items cfg none yi xi).map CItem.base ≠ [])
    obtain ⟨v0, hv0⟩ := Option.isSome_iff_exists.mp (hBvals b0 hb0).1
    exact List.ne_nil_of_mem (List.mem_filterMap.mpr ⟨b0, hb0, hv0⟩)
  have hvalsyne : ((bucketOf items cfg none yi xi).map CItem.base).filterMap
      (fun it => it.params.lookup ky) ≠ [] := by
    obtain ⟨b0, hb0⟩ := List.exists_mem_of_ne_nil _
      (by simpa using hBne : (bucketOf items cfg none yi xi).map CItem.base ≠ [])
    obtain ⟨w0, hw0⟩ := Option.isSome_iff_exists.mp (hBvals b0 hb0).2
    exact List.ne_nil_of_mem (List.mem_filterMap.mpr ⟨b0, hb0, hw0⟩)
  obtain ⟨amn, hamn⟩ : ∃ a, minQ (((bucketOf items cfg none yi xi).map CItem.base).filterMap
      (fun it => it.params.lookup kx)) = some a := by
    cases hmq : minQ _ with
    | none => exact absurd ((minQ_eq_none_iff _).mp hmq) hvalsxne
    | some a => exact ⟨a, rfl⟩
  obtain ⟨amx, hamx⟩ : ∃ a, maxQ (((bucketOf items cfg none yi xi).map CItem.base).filterMap
      (fun it => it.params.lookup kx)) = some a := by
    cases hmq : maxQ _ with
    | none => exact absurd ((maxQ_eq_none_iff _).mp hmq) hvalsxne
    | some a => exact ⟨a, rfl⟩
  obtain ⟨bmn, hbmn⟩ : ∃ a, minQ (((bucketOf items cfg none yi xi).map CItem.base).filterMap
      (fun it => it.params.lookup ky)) = some a := by
    cases hmq : minQ _ with
    | none => exact absurd ((minQ_eq_none_iff _).mp hmq) hvalsyne
    | some a => exact ⟨a, rfl⟩
  obtain ⟨bmx, hbmx⟩ : ∃ a, maxQ (((bucketOf items cfg none yi xi).map CItem.base).filterMap
      (fun it => it.params.lookup ky)) = some a := by
    cases hmq : maxQ _ with
    | none => exact absurd ((maxQ_eq_none_iff _).mp hmq) hvalsyne
    | some a => exact ⟨a, rfl⟩
  have hrangex : rangeOf ((bucketOf items cfg none yi xi).map CItem.base) kx
      = ⟨some amn, some amx⟩ := by
    unfold rangeOf
    rw [hamn, hamx]
  have hrangey : rangeOf ((bucketOf items cfg none yi xi).map CItem.base) ky
      = ⟨some bmn, some bmx⟩ := by
    unfold rangeOf
    rw [hbmn, hbmx]
  -- identify the cell's zoomRanges
  have hzc : zc = [(kx, ⟨some amn, some amx⟩), (ky, ⟨some bmn, some bmx⟩)] := by
    rw [hceq0] at h5
    unfold mkCell at h5
    rw [if_neg (by simpa using hBne)] at h5
    have hcr : computeRanges ((bucketOf items cfg none yi xi).map CItem.base) ([kx] ++ [ky])
        = [(kx, ⟨some amn, some amx⟩), (ky, ⟨some bmn, some bmx⟩)] := by
      unfold computeRanges
      simp [hrangex, hrangey]
    rw [hcr] at h5
    simp at h5
    exact h5.symm
  -- global ranges are non-degenerate on both axes
  have hxv : xRangeValidOf items cfg none = true ∧ yRangeValidOf items cfg none = true := by
    unfold useIndexCoordsOf at h2
    simp only [Bool.or_eq_false_iff, Bool.not_eq_false'] at h2
    exact ⟨h2.1.1, h2.1.2⟩
  obtain ⟨k1, hk1, gxmn, gxmx, hg1, hg2, hgltx⟩ := (xRangeValid_iff items cfg none).mp hxv.1
  rw [hxp, List.mem_singleton] at hk1
  rw [hk1] at hg1 hg2
  obtain ⟨k2, hk2, gymn, gymx, hh1, hh2, hglty⟩ := (yRangeValid_iff items cfg none).mp hxv.2
  rw [hyp, List.mem_singleton] at hk2
  rw [hk2] at hh1 hh2
  have hrgx : rangeOf (filteredOf items cfg none) kx = ⟨some gxmn, some gxmx⟩ := by
    cases hr : rangeOf (filteredOf items cfg none) kx
    rw [hr] at hg1 hg2
    simp_all
  have hrgy : rangeOf (filteredOf items cfg none) ky = ⟨some gymn, some gymx⟩ := by
    cases hr : rangeOf (filteredOf items cfg none) ky
    rw [hr] at hh1 hh2
    simp_all
  have hkxmem : kx ∈ allKeysOf cfg :=
    (mem_dedupFirst _ kx).mpr (List.mem_append.mpr (Or.inl (by rw [hxp]; exact List.mem_singleton_self kx)))
  have hkymem : ky ∈ allKeysOf cfg :=
    (mem_dedupFirst _ ky).mpr (List.mem_append.mpr (Or.inr (by rw [hyp]; exact List.mem_singleton_self ky)))
  have hlx : (rangesOf items cfg none).lookup kx = some ⟨some gxmn, some gxmx⟩ := by
    unfold rangesOf
    rw [lookup_computeRanges _ _ kx hkxmem, hrgx]
  have hly : (rangesOf items cfg none).lookup ky = some ⟨some gymn, some gymx⟩ := by
    unfold rangesOf
    rw [lookup_computeRanges _ _ ky hkymem, hrgy]
  -- the centers are numbers
  have hall : ∀ w ∈ withCoordsOf items cfg none, w.xCoord.isSome ∧ w.yCoord.isSome := by
    intro w hw
    rw [withCoordsOf_eq_map_of_not_idx items cfg none h2] at hw
    obtain ⟨r, hr, rfl⟩ := List.mem_map.mp hw
    constructor
    · apply normCoord_isSome
      intro k hk
      rw [hxp, List.mem_singleton] at hk
      subst hk
      exact (h3 r hr).1
    · apply normCoord_isSome
      intro k hk
      rw [hyp, List.mem_singleton] at hk
      subst hk
      exact (h3 r hr).2
  obtain ⟨hcxS, hcyS⟩ := centerOf_isSome_of_not_idx items cfg none h2 hall
  obtain ⟨cxv, hcx⟩ := Option.isSome_iff_exists.mp hcxS
  obtain ⟨cyv, hcy⟩ := Option.isSome_iff_exists.mp hcyS
  have haxis : axisKeysOf cfg = [kx, ky] := by
    unfold axisKeysOf
    rw [hxp, hyp]
    rfl
  -- pointwise: the zoom filter re-selects exactly the bucket
  have hpt : ∀ r ∈ filteredOf items cfg none,
      passesZoom (axisKeysOf cfg) zc r = normBinPred items cfg none yi xi r := by
    intro r hr
    obtain ⟨v, hv⟩ := Option.isSome_iff_exists.mp (h3 r hr).1
    obtain ⟨w, hw⟩ := Option.isSome_iff_exists.mp (h3 r hr).2
    rw [haxis, hzc, passesZoom_pair kx ky hkk amn amx bmn bmx r v w hv hw,
      normBinPred_single items cfg none kx ky hxp hyp gxmn gxmx gymn gymx cxv cyv
        hlx hly (ne_of_gt hgltx) (ne_of_gt hglty) hcx hcy r v w hv hw yi xi]
    rw [Bool.eq_iff_iff]
    simp only [Bool.and_eq_true, decide_eq_true_eq]
    constructor
    · rintro ⟨⟨hv1, hv2⟩, ⟨hw1, hw2⟩⟩
      -- attained extremes pin both bins
      obtain ⟨ra, hra, hva⟩ := List.mem_filterMap.mp (minQ_mem _ _ hamn)
      obtain ⟨rb, hrb, hvb⟩ := List.mem_filterMap.mp (maxQ_mem _ _ hamx)
      obtain ⟨rc, hrc, hwc⟩ := List.mem_filterMap.mp (minQ_mem _ _ hbmn)
      obtain ⟨rd, hrd, hwd⟩ := List.mem_filterMap.mp (maxQ_mem _ _ hbmx)
      rw [hbase] at hra hrb hrc hrd
      obtain ⟨hraF, hraP⟩ := List.mem_filter.mp hra
      obtain ⟨hrbF, hrbP⟩ := List.mem_filter.mp hrb
      obtain ⟨hrcF, hrcP⟩ := List.mem_filter.mp hrc
      obtain ⟨hrdF, hrdP⟩ := List.mem_filter.mp hrd
      obtain ⟨wa, hwa⟩ := Option.isSome_iff_exists.mp (h3 ra hraF).2
      obtain ⟨vb2, hvb2⟩ := Option.isSome_iff_exists.mp (h3 rb hrbF).1
      obtain ⟨vc, hvc⟩ := Option.isSome_iff_exists.mp (h3 rc hrcF).1
      obtain ⟨vd, hvd⟩ := Option.isSome_iff_exists.mp (h3 rd hrdF).1
      obtain ⟨wb, hwb⟩ := Option.isSome_iff_exists.mp (h3 rb hrbF).2
      obtain ⟨wc2, hwc2⟩ := Option.isSome_iff_exists.mp (h3 rc hrcF).2
      obtain ⟨wd2, hwd2⟩ := Option.isSome_iff_exists.mp (h3 rd hrdF).2
      rw [normBinPred_single items cfg none kx ky hxp hyp gxmn gxmx gymn gymx cxv cyv
          hlx hly (ne_of_gt hgltx) (ne_of_gt hglty) hcx hcy ra amn wa hva hwa yi xi] at hraP
      rw [normBinPred_single items cfg none kx ky hxp hyp gxmn gxmx gymn gymx cxv cyv
          hlx hly (ne_of_gt hgltx) (ne_of_gt hglty) hcx hcy rb amx wb hvb hwb yi xi] at hrbP
      rw [normBinPred_single items cfg none kx ky hxp hyp gxmn gxmx gymn gymx cxv cyv
          hlx hly (ne_of_gt hgltx) (ne_of_gt hglty) hcx hcy rc vc bmn hvc hwc yi xi] at hrcP
      rw [normBinPred_single items cfg none kx ky hxp hyp gxmn gxmx gymn gymx cxv cyv
          hlx hly (ne_of_gt hgltx) (ne_of_gt hglty) hcx hcy rd vd bmx hvd hwd yi xi] at hrdP
      simp only [Bool.and_eq_true, decide_eq_true_eq] at hraP hrbP hrcP hrdP
      constructor
      · exact binChain_between (gridOf items cfg none) gymn gymx cyv hglty hw1 hw2 yi
          hrcP.1 hrdP.1
      · exact binChain_between (gridOf items cfg none) gxmn gxmx cxv hgltx hv1 hv2 xi
          hraP.2 hrbP.2
    · intro hbin
      -- r itself is in the bucket, so its values lie within the ranges
      have hrP : normBinPred items cfg none yi xi r = true := by
        rw [normBinPred_single items cfg none kx ky hxp hyp gxmn gxmx gymn gymx cxv cyv
          hlx hly (ne_of_gt hgltx) (ne_of_gt hglty) hcx hcy r v w hv hw yi xi]
        simp only [Bool.and_eq_true, decide_eq_true_eq]
        exact hbin
      have hrmem : r ∈ (bucketOf items cfg none yi xi).map CItem.base := by
        rw [hbase]
        exact List.mem_filter.mpr ⟨hr, hrP⟩
      have hvmem : v ∈ ((bucketOf items cfg none yi xi).map CItem.base).filterMap
          (fun it => it.params.lookup kx) := List.mem_filterMap.mpr ⟨r, hrmem, hv⟩
      have hwmem : w ∈ ((bucketOf items cfg none yi xi).map CItem.base).filterMap
          (fun it => it.params.lookup ky) := List.mem_filterMap.mpr ⟨r, hrmem, hw⟩
      exact ⟨⟨minQ_le _ amn hamn v hvmem, le_maxQ _ amx hamx v hvmem⟩,
        ⟨minQ_le _ bmn hbmn w hwmem, le_maxQ _ bmx hbmx w hwmem⟩⟩
  -- the second call's filtered set has exactly the bucket's size
  have hfil2eq : filteredOf items cfg (some zc)
      = (filteredOf items cfg none).filter (passesZoom (axisKeysOf cfg) zc) := rfl
  have hlen : (filteredOf items cfg (some zc)).length = c.count := by
    rw [hfil2eq, List.filter_congr hpt, ← hbase, List.length_map, hceq0,
      mkCell_count]
  have hfil2ne : filteredOf items cfg (some zc) ≠ [] := by
    intro hnil
    have : c.count = 0 := by rw [← hlen, hnil]; rfl
    rw [hceq0, mkCell_count] at this
    exact hBne (List.length_eq_zero.mp this)
  have hcrash2 : crashOf items cfg (some zc) = false := by
    apply crashOf_allValues
    intro r hr k hk
    have hrF : r ∈ filteredOf items cfg none := by
      rw [hfil2eq] at hr
      exact (List.mem_filter.mp hr).1
    rw [hxp, hyp] at hk
    rcases List.mem_cons.mp hk with rfl | hk2
    · exact (h3 r hrF).1
    · have hk3 : k = ky := by simpa using hk2
      rw [hk3]
      exact (h3 r hrF).2
  exact ⟨buildHeatMap_matrix_iff.mpr ⟨hitems, hfil2ne, hcrash2, rfl⟩, hlen⟩

/-- Concrete input for the C6 amended-claim witness: a 2×2 grid of
parameter combinations with distinct scores. -/
def itemsC6w : List Result :=
  [⟨"w1", [("p1", 1), ("p2", 1)], 9/10⟩, ⟨"w2", [("p1", 2), ("p2", 1)], 8/10⟩,
   ⟨"w3", [("p1", 1), ("p2", 2)], 7/10⟩, ⟨"w4", [("p1", 2), ("p2", 2)], 6/10⟩]

/-- The witness cell `(0,0)` of the first call on `itemsC6w`. -/
def cW : Cell :=
  mkCell (xParamsOf cfgC6) (yParamsOf cfgC6) (bucketOf itemsC6w cfgC6 none 0 0) 0 0

def zcW : List (String × RangeQ) :=
  [("p1", ⟨some 1, some 1⟩), ("p2", ⟨some 1, some 1⟩)]

/-- Witness for the amended C6 at a concrete input. -/
theorem c6_drilldown_witness :
    buildHeatMap itemsC6w cfgC6 (some zcW) = .matrix (matrixOf itemsC6w cfgC6 (some zcW)) ∧
    (matrixOf itemsC6w cfgC6 (some zcW)).N = cW.count :=
  c6_drilldown itemsC6w cfgC6 "p1" "p2" (matrixOf itemsC6w cfgC6 none) 0 0 cW zcW
    (by decide) (by decide) (by decide) (by decide) (by decide) (by decide)
    (by decide) (by decide)

end QuantSandbox
